import Mathlib

/-!
# Target reconciler (`k8s/controllers/symphony.microsoft.com/target_controller.go`)

A shallow embedding of `TargetReconciler.Reconcile`, `updateTargetStatus`,
`ensureOperationState` and `updateProvisioningStatus`.

* A Go `map[string]V` is a key-unique association list (`GoMap`); the order of the
  list is the order in which a `range` loop visits the entries, so quantifying over
  all `GoMap`s quantifies over all iteration orders.
* A Go `error` is a `GoError` (its text and whether `apierrors.IsNotFound` holds of
  it); a nil error is `none`.
* The collaborators that live outside the controller file (the descriptor builder,
  the deployment client, the API-error decoder, the resource store's failures, the
  clock and the operation-id annotation key) are fields of `World`.
* One pass threads a `Pass` value: the in-memory object, the persisted object, the
  number of store writes attempted so far and the trace of collaborator calls.
* The body of `Reconcile` is cut at its branches into `finalizerStep` (lines 90-95),
  `deployStep` (lines 112-129), `updateBranch` (lines 88-129), `removeStep`
  (lines 133-141) and `removeBranch` (lines 130-148).
-/

namespace Symphony

/-! ## Go maps -/

/-- A Go `map[string]V`: every key occurs at most once. -/
structure GoMap (V : Type) where
  entries : List (String × V)
  nodup : (entries.map Prod.fst).Nodup

namespace GoMap

variable {V : Type}

/-- The result of `make(map[string]V)`. -/
def empty : GoMap V := ⟨[], List.nodup_nil⟩

/-- The keys, in iteration order. -/
def keys (m : GoMap V) : List String := m.entries.map Prod.fst

/-- The two-valued lookup `v, ok := m[k]`. -/
def get (m : GoMap V) (k : String) : Option V := m.entries.lookup k

/-- The value of `len(m)`. -/
def len (m : GoMap V) : Nat := m.entries.length

/-- The assignment `m[k] = v`. -/
def set (m : GoMap V) (k : String) (v : V) : GoMap V :=
  ⟨(k, v) :: m.entries.filter (fun p => p.1 != k), by
    simp only [List.map_cons, List.nodup_cons]
    constructor
    · intro hmem
      obtain ⟨p, hp, hk⟩ := List.mem_map.1 hmem
      have := (List.mem_filter.1 hp).2
      simp [hk] at this
    · exact ((List.filter_sublist m.entries).map Prod.fst).nodup m.nodup⟩

end GoMap

instance {V : Type} : Inhabited (GoMap V) := ⟨GoMap.empty⟩

instance {V : Type} [DecidableEq V] : DecidableEq (GoMap V) := fun a b =>
  match a, b with
  | ⟨ea, _⟩, ⟨eb, _⟩ =>
    if h : ea = eb then isTrue (by subst h; rfl)
    else isFalse (fun h2 => h (by cases h2; rfl))

/-! ## Data model -/

/-- A Go `error` value: the text of `Error()` and whether it is a not-found error. -/
structure GoError where
  msg : String
  isNotFound : Bool
deriving DecidableEq, Inhabited

/-- The type `model.TargetResultSpec`. -/
structure TargetResultSpec where
  Status : String
  Message : String
deriving DecidableEq, Inhabited

/-- The type `model.SummarySpec`. -/
structure SummarySpec where
  TargetCount : Int
  SuccessCount : Int
  TargetResults : GoMap TargetResultSpec
deriving DecidableEq, Inhabited

/-- The type `symphonyv1.TargetError`. -/
structure TargetError where
  Code : String
  Message : String
  Target : String
deriving DecidableEq, Inhabited

/-- The type `symphonyv1.ErrorType`; `default` is the Go zero value `ErrorType{}`. -/
structure ErrorType where
  Code : String
  Message : String
  Target : String
  Details : List TargetError
deriving DecidableEq, Inhabited

/-- The fields of `symphonyv1.ProvisioningStatus` the controller touches. -/
structure ProvisioningStatus where
  OperationID : String
  Status : String
  Error : ErrorType
deriving DecidableEq, Inhabited

/-- The type `symphonyv1.TargetStatus`. -/
structure TargetStatus where
  Properties : GoMap String
  ProvisioningStatus : ProvisioningStatus
  LastModified : Nat
deriving DecidableEq, Inhabited

/-- The type `symphonyv1.Target`: the metadata the controller reads, the spec (only
handed to the descriptor builder) and the status. -/
structure Target where
  Annotations : GoMap String
  DeletionTimestamp : Option Nat
  Finalizers : List String
  Spec : String
  Status : TargetStatus
deriving DecidableEq, Inhabited

/-- The type `model.DeploymentSpec`; the controller only reads `len(Assignments)`. -/
structure DeploymentSpec where
  Assignments : GoMap String
deriving DecidableEq, Inhabited

/-- The value `utils.ParseAsAPIError` decodes: a code and a summary-shaped body. -/
structure APIError where
  Code : String
  Spec : SummarySpec
deriving DecidableEq, Inhabited

/-! ## Constants and library functions -/

/-- Modelled from the spec: the constant `provisioningstates.Reconciling` of
`gopls-workspace/utils/models` is not part of the controller file; the spec names the
three states `Reconciling`, `Succeeded`, `Failed`. -/
def provisioningstates.Reconciling : String := "Reconciling"

/-- Modelled from the spec: the constant `provisioningstates.Succeeded`, see
`provisioningstates.Reconciling`. -/
def provisioningstates.Succeeded : String := "Succeeded"

/-- Modelled from the spec: the constant `provisioningstates.Failed`, see
`provisioningstates.Reconciling`. -/
def provisioningstates.Failed : String := "Failed"

/-- The local `myFinalizerName` of `Reconcile`. -/
def myFinalizerName : String := "target.symphony.microsoft.com/finalizer"

/-- The function `strconv.Itoa`: the decimal rendering of an integer. -/
def Itoa (n : Int) : String :=
  match n with
  | Int.ofNat m => Nat.repr m
  | Int.negSucc m => "-" ++ Nat.repr (m + 1)

/-- The method `(*metav1.Time).IsZero`: a nil pointer or the zero time. -/
def IsZero (t : Option Nat) : Bool :=
  match t with
  | none => true
  | some n => n == 0

/-- The function `controllerutil.ContainsFinalizer`. -/
def ContainsFinalizer (t : Target) (finalizer : String) : Bool :=
  t.Finalizers.contains finalizer

/-- The function `controllerutil.AddFinalizer`: appends the token unless present. -/
def AddFinalizer (t : Target) (finalizer : String) : Target :=
  if t.Finalizers.contains finalizer then t
  else { t with Finalizers := t.Finalizers ++ [finalizer] }

/-- The function `controllerutil.RemoveFinalizer`: drops every occurrence of the token. -/
def RemoveFinalizer (t : Target) (finalizer : String) : Target :=
  { t with Finalizers := t.Finalizers.filter (fun f => f != finalizer) }

/-- The function `client.IgnoreNotFound`. -/
def IgnoreNotFound (err : GoError) : Option GoError :=
  if err.isNotFound then none else some err

/-! ## Collaborators -/

/-- Everything one pass of the reconciler obtains from outside the controller file. -/
structure World where
  /-- The constant `constants.AzureOperationKey`. -/
  AzureOperationKey : String
  /-- A failure of `r.Get` other than the object being absent. -/
  getErr : Option GoError
  /-- The failure, if any, of the n-th store write of the pass (counted from 0). -/
  writeErr : Nat → Option GoError
  /-- The value of `metav1.Now()`. -/
  now : Nat
  /-- The function `utils.CreateSymphonyDeploymentFromTarget`. -/
  CreateSymphonyDeploymentFromTarget : Target → Except GoError DeploymentSpec
  /-- The function `api_utils.Deploy` at the fixed address and credentials. -/
  Deploy : DeploymentSpec → SummarySpec × Option GoError
  /-- The function `api_utils.Remove` at the fixed address and credentials. -/
  Remove : DeploymentSpec → SummarySpec × Option GoError
  /-- The function `utils.ParseAsAPIError`; `none` is a decode failure. -/
  ParseAsAPIError : GoError → Option APIError

/-- A call the reconciler makes on a collaborator, as recorded in the trace. -/
inductive Event where
  /-- The call `r.Get`. -/
  | get (ok : Bool)
  /-- The call `r.Status().Update` with the status it carries. -/
  | statusUpdate (status : TargetStatus) (ok : Bool)
  /-- The call `r.Update` with the finalizers it carries. -/
  | update (finalizers : List String) (ok : Bool)
  /-- The call `utils.CreateSymphonyDeploymentFromTarget`. -/
  | build
  /-- The call `api_utils.Deploy`. -/
  | deploy (ok : Bool)
  /-- The call `api_utils.Remove`. -/
  | remove (ok : Bool)
deriving DecidableEq

/-- The state threaded through one pass. -/
structure Pass where
  /-- The in-memory object `target`. -/
  target : Target
  /-- The object persisted in the resource store, if it exists. -/
  stored : Option Target
  /-- The number of store writes attempted so far in this pass. -/
  writes : Nat
  /-- The collaborator calls made so far, oldest first. -/
  trace : List Event

/-- The error a store operation returns for an absent object. -/
def notFoundError : GoError := ⟨"not found", true⟩

/-- The call `r.Get(ctx, req.NamespacedName, target)`. -/
def Get (w : World) (p : Pass) : Option GoError × Pass :=
  match w.getErr with
  | some err => (some err, { p with trace := p.trace ++ [Event.get false] })
  | none =>
    match p.stored with
    | none => (some notFoundError, { p with trace := p.trace ++ [Event.get false] })
    | some t => (none, { p with target := t, trace := p.trace ++ [Event.get true] })

/-- The call `r.Status().Update(ctx, target)`: on success the persisted status becomes
the in-memory status; nothing else of the persisted object changes. The client also
refreshes the in-memory object from the response; within a pass the in-memory metadata
already equal the persisted ones at every status write, so the refresh is not modelled. -/
def StatusUpdate (w : World) (p : Pass) : Option GoError × Pass :=
  match p.stored, w.writeErr p.writes with
  | some s, none =>
    (none, { p with stored := some { s with Status := p.target.Status },
                    writes := p.writes + 1,
                    trace := p.trace ++ [Event.statusUpdate p.target.Status true] })
  | _, some err =>
    (some err, { p with writes := p.writes + 1,
                        trace := p.trace ++ [Event.statusUpdate p.target.Status false] })
  | none, none =>
    (some notFoundError, { p with writes := p.writes + 1,
                                  trace := p.trace ++ [Event.statusUpdate p.target.Status false] })

/-- The call `r.Update(ctx, target)`: on success the persisted object takes the
in-memory metadata and spec; the status subresource is not written. The store's
collection of an object left without finalizers under deletion intent is not modelled:
the object stays persisted with its remaining finalizers. -/
def Update (w : World) (p : Pass) : Option GoError × Pass :=
  match p.stored, w.writeErr p.writes with
  | some s, none =>
    (none, { p with stored := some { p.target with Status := s.Status },
                    writes := p.writes + 1,
                    trace := p.trace ++ [Event.update p.target.Finalizers true] })
  | _, some err =>
    (some err, { p with writes := p.writes + 1,
                        trace := p.trace ++ [Event.update p.target.Finalizers false] })
  | none, none =>
    (some notFoundError, { p with writes := p.writes + 1,
                                  trace := p.trace ++ [Event.update p.target.Finalizers false] })

/-! ## The controller -/

/-- The method `ensureOperationState` (lines 180-183). -/
def ensureOperationState (w : World) (target : Target) (provisioningState : String) : Target :=
  { target with Status := { target.Status with ProvisioningStatus :=
      { target.Status.ProvisioningStatus with
          Status := provisioningState
          OperationID := (target.Annotations.get w.AzureOperationKey).getD "" } } }

/-- The assignment of `target.Status.ProvisioningStatus.Error`. -/
def setError (target : Target) (e : ErrorType) : Target :=
  { target with Status := { target.Status with ProvisioningStatus :=
      { target.Status.ProvisioningStatus with Error := e } } }

/-- The method `updateProvisioningStatus` (lines 185-211). -/
def updateProvisioningStatus (w : World) (target : Target) (provisioningStatus : String)
    (provisioningError : Option GoError) : Target :=
  let target := ensureOperationState w target provisioningStatus
  let target := setError target { Code := "", Message := "", Target := "", Details := [] }
  match provisioningError with
  | none => target
  | some perr =>
    match w.ParseAsAPIError perr with
    | none =>
      setError target { target.Status.ProvisioningStatus.Error with
                          Code := "500", Message := "Deployment failed. " ++ perr.msg }
    | some parsedError =>
      setError target
        { Code := parsedError.Code, Message := "Deployment failed.", Target := "Symphony",
          Details := parsedError.Spec.TargetResults.entries.foldl
            (fun details kv =>
              details ++ [{ Code := kv.2.Status, Message := kv.2.Message, Target := kv.1 }])
            [] }

/-- The body of the `range summary.TargetResults` loop of `updateTargetStatus`. -/
def resultStep (props : GoMap String) (kv : String × TargetResultSpec) : GoMap String :=
  props.set ("targets." ++ kv.1) (kv.2.Status ++ " - " ++ kv.2.Message)

/-- The property bag `updateTargetStatus` builds (lines 155-162). -/
def statusProperties (status : String) (summary : SummarySpec) : GoMap String :=
  let props : GoMap String := GoMap.empty
  let props := props.set "status" status
  let props := props.set "targets" (Itoa summary.TargetCount)
  let props := props.set "deployed" (Itoa summary.SuccessCount)
  summary.TargetResults.entries.foldl resultStep props

/-- Lines 154-166 of `updateTargetStatus`: the assignments to the in-memory object that
precede the status write. -/
def projectStatus (w : World) (target : Target) (status : String) (provisioningStatus : String)
    (summary : SummarySpec) (provisioningError : Option GoError) : Target :=
  let target := { target with Status := { target.Status with
                    Properties := statusProperties status summary } }
  let target := updateProvisioningStatus w target provisioningStatus provisioningError
  { target with Status := { target.Status with LastModified := w.now } }

/-- The method `updateTargetStatus` (lines 153-168). -/
def updateTargetStatus (w : World) (p : Pass) (status : String) (provisioningStatus : String)
    (summary : SummarySpec) (provisioningError : Option GoError) : Option GoError × Pass :=
  StatusUpdate w
    { p with target := projectStatus w p.target status provisioningStatus summary
                         provisioningError }

/-- The summary `Reconcile` synthesises when the descriptor cannot be built
(lines 100-109). -/
def selfFailedSummary (err : GoError) : SummarySpec :=
  { TargetCount := 1, SuccessCount := 0,
    TargetResults := GoMap.empty.set "self" { Status := "Failed", Message := err.msg } }

/-- Lines 90-95 of `Reconcile`: add the finalizer token and persist the object when the
token is absent. -/
def finalizerStep (w : World) (p : Pass) : Option GoError × Pass :=
  if !ContainsFinalizer p.target myFinalizerName then
    Update w { p with target := AddFinalizer p.target myFinalizerName }
  else (none, p)

/-- Lines 112-129 of `Reconcile`: the deploy call and the status write that follows it;
a descriptor without assignments skips both. -/
def deployStep (w : World) (p : Pass) (deployment : DeploymentSpec) : Option GoError × Pass :=
  if deployment.Assignments.len != 0 then
    let p := { p with trace := p.trace ++ [Event.deploy (w.Deploy deployment).2.isNone] }
    match w.Deploy deployment with
    | (summary, some err) =>
      updateTargetStatus w p "Failed" provisioningstates.Failed summary (some err)
    | (summary, none) =>
      match Update w p with
      | (some err, p) =>
        updateTargetStatus w p "State Failed" provisioningstates.Failed summary (some err)
      | (none, p) =>
        match updateTargetStatus w p "OK" provisioningstates.Succeeded summary none with
        | (some err, p) => (some err, p)
        | (none, p) => (none, p)
  else (none, p)

/-- Lines 88-129 of `Reconcile`: the `// update` branch, taken when the deletion
timestamp is zero. -/
def updateBranch (w : World) (p : Pass) : Option GoError × Pass :=
  match finalizerStep w p with
  | (some err, p) => (some err, p)
  | (none, p) =>
    let p := { p with trace := p.trace ++ [Event.build] }
    match w.CreateSymphonyDeploymentFromTarget p.target with
    | Except.error err =>
      updateTargetStatus w p "deploymentCreationFailed" provisioningstates.Failed
        (selfFailedSummary err) (some err)
    | Except.ok deployment => deployStep w p deployment

/-- Lines 133-141 of `Reconcile`: the best-effort removal; both failures are only logged. -/
def removeStep (w : World) (p : Pass) : Pass :=
  let p := { p with trace := p.trace ++ [Event.build] }
  match w.CreateSymphonyDeploymentFromTarget p.target with
  | Except.error _ => p
  | Except.ok deployment =>
    { p with trace := p.trace ++ [Event.remove (w.Remove deployment).2.isNone] }

/-- Lines 130-148 of `Reconcile`: the `// remove` branch, taken when the deletion
timestamp is set. -/
def removeBranch (w : World) (p : Pass) : Option GoError × Pass :=
  if ContainsFinalizer p.target myFinalizerName then
    let p := removeStep w p
    match Update w { p with target := RemoveFinalizer p.target myFinalizerName } with
    | (some err, p) => (some err, p)
    | (none, p) => (none, p)
  else (none, p)

/-- The method `TargetReconciler.Reconcile` (lines 68-151): the error returned to the
caller and the state at return. The returned `ctrl.Result` is always empty. -/
def Reconcile (w : World) (store : Option Target) : Option GoError × Pass :=
  match Get w { target := default, stored := store, writes := 0, trace := [] } with
  | (some err, p) => (IgnoreNotFound err, p)
  | (none, p) =>
    let p := { p with target := ensureOperationState w p.target provisioningstates.Reconciling }
    match StatusUpdate w p with
    | (some err, p) => (some err, p)
    | (none, p) =>
      if IsZero p.target.DeletionTimestamp then updateBranch w p
      else removeBranch w p

/-- The in-memory object handed to the descriptor builder on the reconcile path: the
fetched object after the in-progress marking and the finalizer step (lines 81-97). -/
def buildInput (w : World) (t : Target) : Target :=
  AddFinalizer (ensureOperationState w t provisioningstates.Reconciling) myFinalizerName

/-- The number of store writes attempted on the reconcile path before the descriptor is
built: the in-progress write, and the finalizer write when the token was absent. -/
def writesBeforeDeploy (t : Target) : Nat :=
  if ContainsFinalizer t myFinalizerName then 1 else 2

/-- The trace of the reconcile path up to the descriptor build, when the in-progress
write and the finalizer write succeed. -/
def preBuildTrace (w : World) (t : Target) : List Event :=
  [Event.get true,
    Event.statusUpdate (ensureOperationState w t provisioningstates.Reconciling).Status true]
  ++ (if ContainsFinalizer t myFinalizerName then []
      else [Event.update (buildInput w t).Finalizers true])

/-- The state of a pass on the stored object `t` right after the in-progress status write
has succeeded (line 87). -/
def markedPass (w : World) (t : Target) : Pass :=
  { target := ensureOperationState w t provisioningstates.Reconciling,
    stored := some (ensureOperationState w t provisioningstates.Reconciling),
    writes := 1,
    trace := [Event.get true,
      Event.statusUpdate (ensureOperationState w t provisioningstates.Reconciling).Status true] }

/-- The state of a pass on the reconcile path right before the descriptor is built
(line 96), when the finalizer step has succeeded. -/
def readyPass (w : World) (t : Target) : Pass :=
  { target := buildInput w t, stored := some (buildInput w t),
    writes := writesBeforeDeploy t, trace := preBuildTrace w t }

/-- The state of a pass on the reconcile path right after the descriptor builder has
been called (line 97). -/
def builtPass (w : World) (t : Target) : Pass :=
  { readyPass w t with trace := preBuildTrace w t ++ [Event.build] }

/-! ## Predicates on traces and statuses -/

/-- Whether the event is a downstream call (Deploy or Remove) or an object `Update`. -/
def Event.isDownstream : Event → Bool
  | Event.deploy _ => true
  | Event.remove _ => true
  | Event.update _ _ => true
  | _ => false

/-- Whether the event is a call of `r.Status().Update`, succeeded or not. -/
def Event.isStatusWrite : Event → Bool
  | Event.statusUpdate _ _ => true
  | _ => false

/-- Whether the event is a succeeded status write carrying the state `Reconciling` and
the operation id annotated on `t`. -/
def Event.isMark (w : World) (t : Target) : Event → Bool
  | Event.statusUpdate st true =>
    st.ProvisioningStatus.Status == provisioningstates.Reconciling &&
      st.ProvisioningStatus.OperationID == (t.Annotations.get w.AzureOperationKey).getD ""
  | _ => false

/-- The shapes a status takes during a pass entered with the error object `entry`:
`Failed` with a non-empty error, `Succeeded` with an empty error, or `Reconciling` with
the error object the pass was entered with. -/
def StatusOK (entry : ErrorType) (st : TargetStatus) : Prop :=
  (st.ProvisioningStatus.Status = provisioningstates.Failed ∧
    st.ProvisioningStatus.Error ≠ default) ∨
  (st.ProvisioningStatus.Status = provisioningstates.Succeeded ∧
    st.ProvisioningStatus.Error = default) ∨
  (st.ProvisioningStatus.Status = provisioningstates.Reconciling ∧
    st.ProvisioningStatus.Error = entry)

/-- Every persisted status of the pass state satisfies `Q`. -/
def StoredSat (Q : TargetStatus → Prop) (p : Pass) : Prop :=
  ∀ s, p.stored = some s → Q s.Status

/-! ## Scenarios -/

/-- A live Target without finalizer, carrying an operation id annotation. -/
def liveTarget : Target :=
  { Annotations := GoMap.empty.set "operationId" "op-1"
    DeletionTimestamp := none
    Finalizers := []
    Spec := "spec"
    Status := default }

/-- A descriptor with three assignments. -/
def threeDeployment : DeploymentSpec :=
  { Assignments := ((GoMap.empty.set "a" "x").set "b" "y").set "c" "z" }

/-- The Summary of three succeeded sub-targets `a`, `b`, `c` with empty messages. -/
def threeSummary : SummarySpec :=
  { TargetCount := 3, SuccessCount := 3,
    TargetResults := ((GoMap.empty.set "a" { Status := "Succeeded", Message := "" }).set "b"
      { Status := "Succeeded", Message := "" }).set "c" { Status := "Succeeded", Message := "" } }

/-- A world in which every collaborator succeeds and Deploy reports `threeSummary`. -/
def successWorld : World :=
  { AzureOperationKey := "operationId"
    getErr := none
    writeErr := fun _ => none
    now := 42
    CreateSymphonyDeploymentFromTarget := fun _ => Except.ok threeDeployment
    Deploy := fun _ => (threeSummary, none)
    Remove := fun _ => (default, none)
    ParseAsAPIError := fun _ => none }

/-- The Summary of one failing sub-target `x` with status `409` and message `conflict`. -/
def conflictSummary : SummarySpec :=
  { TargetCount := 1, SuccessCount := 0,
    TargetResults := GoMap.empty.set "x" { Status := "409", Message := "conflict" } }

/-- An error whose text is the payload of a structured API error. -/
def conflictError : GoError := { msg := "conflict payload", isNotFound := false }

/-- An error without structure. -/
def refusedError : GoError := { msg := "connection refused", isNotFound := false }

/-- A world in which Deploy fails with `conflictError`, which decodes as a structured API
error with code `409` and body `conflictSummary`; other errors do not decode. -/
def conflictWorld : World :=
  { successWorld with
    Deploy := fun _ => (conflictSummary, some conflictError)
    ParseAsAPIError := fun e =>
      if e = conflictError then some { Code := "409", Spec := conflictSummary } else none }

/-- A live Target, finalizer present, whose stored status is `Failed` with a structured
error left by an earlier pass. -/
def failedTarget : Target :=
  { liveTarget with
    Finalizers := [myFinalizerName]
    Status :=
      { Properties := GoMap.empty.set "status" "Failed"
        ProvisioningStatus :=
          { OperationID := "op-0", Status := "Failed",
            Error := { Code := "409", Message := "Deployment failed.", Target := "Symphony",
                       Details := [{ Code := "409", Message := "conflict", Target := "x" }] } }
        LastModified := 7 } }

/-- A world in which the descriptor carries no assignment. -/
def noopWorld : World :=
  { successWorld with
    CreateSymphonyDeploymentFromTarget := fun _ => Except.ok { Assignments := GoMap.empty } }

/-- The error of a descriptor builder that rejects the spec. -/
def badSpecError : GoError := { msg := "bad spec", isNotFound := false }

/-- A world in which the descriptor cannot be built. -/
def badSpecWorld : World :=
  { successWorld with
    CreateSymphonyDeploymentFromTarget := fun _ => Except.error badSpecError }

/-- A world in which Deploy and Remove both fail with an unstructured error. -/
def refusedWorld : World :=
  { successWorld with
    Deploy := fun _ => (default, some refusedError)
    Remove := fun _ => (default, some refusedError) }

/-- A Target with deletion intent set and the finalizer token present. -/
def deletingTarget : Target :=
  { liveTarget with DeletionTimestamp := some 5, Finalizers := ["other", myFinalizerName] }

/-- The world `conflictWorld` in which the third store write of a pass fails. -/
def lostWriteWorld : World :=
  { conflictWorld with writeErr := fun n => if n = 2 then some refusedError else none }

/-- A world in which the in-progress status write fails. -/
def conflictingWriteWorld : World :=
  { successWorld with
    writeErr := fun n => if n = 0 then some { msg := "conflict", isNotFound := false } else none }

/-- The results of `threeSummary`, ranged in another order. -/
def threeSummaryReordered : SummarySpec :=
  { TargetCount := 3, SuccessCount := 3,
    TargetResults := ((GoMap.empty.set "c" { Status := "Succeeded", Message := "" }).set "a"
      { Status := "Succeeded", Message := "" }).set "b" { Status := "Succeeded", Message := "" } }

/-- The world `successWorld` one tick later, Deploy reporting the same results in another
iteration order. -/
def laterWorld : World :=
  { successWorld with now := 43, Deploy := fun _ => (threeSummaryReordered, none) }

/-- The object persisted by one pass of `Reconcile` on `liveTarget` in `successWorld`. -/
def onceReconciled : Target :=
  { liveTarget with
    Finalizers := [myFinalizerName]
    Status :=
      { Properties := statusProperties "OK" threeSummary
        ProvisioningStatus :=
          { OperationID := "op-1", Status := "Succeeded",
            Error := { Code := "", Message := "", Target := "", Details := [] } }
        LastModified := 42 } }

/-! ## Lemmas on Go maps and keys -/

theorem lookup_filter_ne {V : Type} (l : List (String × V)) (k k' : String) (h : k' ≠ k) :
    (l.filter (fun p => p.1 != k)).lookup k' = l.lookup k' := by
  induction l with
  | nil => rfl
  | cons p l ih =>
    obtain ⟨a, b⟩ := p
    by_cases ha : a = k
    · subst ha
      have hne : (k' == a) = false := by simpa using h
      simp [List.filter_cons, List.lookup_cons, ih, hne]
    · by_cases hk : k' = a
      · subst hk
        simp [List.filter_cons, ha, List.lookup_cons]
      · have hne : (k' == a) = false := by simpa using hk
        simp [List.filter_cons, ha, List.lookup_cons, ih, hne]

theorem GoMap.get_set {V : Type} (m : GoMap V) (k k' : String) (v : V) :
    (m.set k v).get k' = if k' = k then some v else m.get k' := by
  unfold GoMap.get GoMap.set
  by_cases h : k' = k
  · subst h
    simp [List.lookup_cons]
  · have hne : (k' == k) = false := by simpa using h
    simp only [List.lookup_cons, hne, if_neg h]
    exact lookup_filter_ne m.entries k k' h

theorem GoMap.mem_keys_set {V : Type} (m : GoMap V) (k k' : String) (v : V) :
    k' ∈ (m.set k v).keys ↔ k' = k ∨ k' ∈ m.keys := by
  unfold GoMap.keys GoMap.set
  simp only [List.map_cons, List.mem_cons, List.mem_map, List.mem_filter]
  constructor
  · rintro (h | ⟨q, ⟨hq, _⟩, rfl⟩)
    · exact Or.inl h
    · exact Or.inr ⟨q, hq, rfl⟩
  · rintro (h | ⟨q, hq, rfl⟩)
    · exact Or.inl h
    · by_cases hk : q.1 = k
      · exact Or.inl hk
      · exact Or.inr ⟨q, ⟨hq, by simpa using hk⟩, rfl⟩

theorem lookup_of_mem_nodup {V : Type} (l : List (String × V)) (h : (l.map Prod.fst).Nodup)
    (k : String) (v : V) (hm : (k, v) ∈ l) : l.lookup k = some v := by
  induction l with
  | nil => cases hm
  | cons p l ih =>
    obtain ⟨a, b⟩ := p
    simp only [List.map_cons, List.nodup_cons] at h
    rcases List.mem_cons.1 hm with heq | hin
    · cases heq
      simp [List.lookup_cons]
    · have hne : k ≠ a := by
        rintro rfl
        exact h.1 (List.mem_map.2 ⟨(k, v), hin, rfl⟩)
      have hb : (k == a) = false := by simpa using hne
      simp only [List.lookup_cons, hb]
      exact ih h.2 hin

theorem mem_of_lookup {V : Type} (l : List (String × V)) (k : String) (v : V)
    (hl : l.lookup k = some v) : (k, v) ∈ l := by
  induction l with
  | nil => simp at hl
  | cons p l ih =>
    obtain ⟨a, b⟩ := p
    by_cases hk : k = a
    · subst hk
      simp [List.lookup_cons] at hl
      subst hl
      exact List.mem_cons_self _ _
    · have hb : (k == a) = false := by simpa using hk
      simp only [List.lookup_cons, hb] at hl
      exact List.mem_cons_of_mem _ (ih hl)

theorem GoMap.get_eq_some_iff {V : Type} (m : GoMap V) (k : String) (v : V) :
    m.get k = some v ↔ (k, v) ∈ m.entries :=
  ⟨mem_of_lookup m.entries k v, lookup_of_mem_nodup m.entries m.nodup k v⟩

theorem targets_key_inj (a b : String) (h : "targets." ++ a = "targets." ++ b) : a = b := by
  have h2 := congrArg String.data h
  simp only [String.data_append] at h2
  exact String.ext (List.append_cancel_left h2)

theorem targets_key_data (k : String) :
    ("targets." ++ k).data = 't' :: 'a' :: 'r' :: 'g' :: 'e' :: 't' :: 's' :: '.' :: k.data := by
  rw [String.data_append]; rfl

theorem targets_key_ne_status (k : String) : "targets." ++ k ≠ "status" := by
  intro h
  have h2 := congrArg String.data h
  rw [targets_key_data] at h2
  have h3 := congrArg List.head? h2
  simp at h3

theorem targets_key_ne_targets (k : String) : "targets." ++ k ≠ "targets" := by
  intro h
  have h2 := congrArg String.data h
  rw [targets_key_data] at h2
  have h3 := congrArg List.length h2
  simp at h3

theorem targets_key_ne_deployed (k : String) : "targets." ++ k ≠ "deployed" := by
  intro h
  have h2 := congrArg String.data h
  rw [targets_key_data] at h2
  have h3 := congrArg List.head? h2
  simp at h3

theorem foldl_resultStep_keys (l : List (String × TargetResultSpec)) (m : GoMap String)
    (key : String) :
    key ∈ (l.foldl resultStep m).keys ↔ key ∈ m.keys ∨ ∃ kv ∈ l, key = "targets." ++ kv.1 := by
  induction l generalizing m with
  | nil => simp
  | cons p l ih =>
    rw [List.foldl_cons, ih, resultStep, GoMap.mem_keys_set]
    simp only [List.mem_cons, exists_eq_or_imp]
    tauto

theorem foldl_resultStep_get_other (l : List (String × TargetResultSpec)) (m : GoMap String)
    (key : String) (h : ∀ kv ∈ l, key ≠ "targets." ++ kv.1) :
    (l.foldl resultStep m).get key = m.get key := by
  induction l generalizing m with
  | nil => rfl
  | cons p l ih =>
    rw [List.foldl_cons, ih _ (fun kv hkv => h kv (List.mem_cons_of_mem _ hkv)), resultStep,
      GoMap.get_set, if_neg (h p (List.mem_cons_self _ _))]

theorem foldl_resultStep_get_mem (l : List (String × TargetResultSpec))
    (hnd : (l.map Prod.fst).Nodup) (m : GoMap String) (k : String) (v : TargetResultSpec)
    (hm : (k, v) ∈ l) :
    (l.foldl resultStep m).get ("targets." ++ k) = some (v.Status ++ " - " ++ v.Message) := by
  induction l generalizing m with
  | nil => cases hm
  | cons p l ih =>
    simp only [List.map_cons, List.nodup_cons] at hnd
    rw [List.foldl_cons]
    rcases List.mem_cons.1 hm with heq | hin
    · subst heq
      rw [foldl_resultStep_get_other, resultStep, GoMap.get_set, if_pos rfl]
      intro kv hkv hk
      have := targets_key_inj _ _ hk
      exact hnd.1 (List.mem_map.2 ⟨kv, hkv, this.symm⟩)
    · exact ih hnd.2 _ hin

/-! ## Lemmas on the status projection -/

theorem StatusUpdate_target (w : World) (p : Pass) : (StatusUpdate w p).2.target = p.target := by
  unfold StatusUpdate
  split <;> rfl

theorem Update_target (w : World) (p : Pass) : (Update w p).2.target = p.target := by
  unfold Update
  split <;> rfl

theorem updateProvisioningStatus_properties (w : World) (t : Target) (ps : String)
    (e : Option GoError) :
    (updateProvisioningStatus w t ps e).Status.Properties = t.Status.Properties := by
  unfold updateProvisioningStatus
  cases e with
  | none => rfl
  | some perr =>
    simp only
    cases w.ParseAsAPIError perr <;> rfl

theorem updateProvisioningStatus_state (w : World) (t : Target) (ps : String)
    (e : Option GoError) :
    (updateProvisioningStatus w t ps e).Status.ProvisioningStatus.Status = ps := by
  unfold updateProvisioningStatus
  cases e with
  | none => rfl
  | some perr =>
    simp only
    cases w.ParseAsAPIError perr <;> rfl

theorem updateProvisioningStatus_error_some (w : World) (t : Target) (ps : String)
    (e : GoError) :
    (updateProvisioningStatus w t ps (some e)).Status.ProvisioningStatus.Error ≠ default := by
  unfold updateProvisioningStatus
  simp only
  cases w.ParseAsAPIError e with
  | none =>
    intro h
    have h2 : "500" = "" := congrArg ErrorType.Code h
    exact absurd h2 (by decide)
  | some pe =>
    intro h
    have h2 : "Deployment failed." = "" := congrArg ErrorType.Message h
    exact absurd h2 (by decide)

theorem updateTargetStatus_properties (w : World) (p : Pass) (status ps : String)
    (S : SummarySpec) (e : Option GoError) :
    (updateTargetStatus w p status ps S e).2.target.Status.Properties
      = statusProperties status S := by
  unfold updateTargetStatus
  simp only [StatusUpdate_target, projectStatus]
  exact updateProvisioningStatus_properties w _ ps e

theorem statusProperties_keys (status : String) (S : SummarySpec) (key : String) :
    key ∈ (statusProperties status S).keys ↔
      key = "status" ∨ key = "targets" ∨ key = "deployed" ∨
        ∃ k ∈ S.TargetResults.keys, key = "targets." ++ k := by
  unfold statusProperties
  simp only [foldl_resultStep_keys, GoMap.mem_keys_set]
  have hempty : key ∉ (GoMap.empty : GoMap String).keys := by simp [GoMap.keys, GoMap.empty]
  have hex : (∃ kv ∈ S.TargetResults.entries, key = "targets." ++ kv.1) ↔
      ∃ k ∈ S.TargetResults.keys, key = "targets." ++ k := by
    unfold GoMap.keys
    constructor
    · rintro ⟨kv, hkv, rfl⟩
      exact ⟨kv.1, List.mem_map.2 ⟨kv, hkv, rfl⟩, rfl⟩
    · rintro ⟨k, hk, rfl⟩
      obtain ⟨kv, hkv, rfl⟩ := List.mem_map.1 hk
      exact ⟨kv, hkv, rfl⟩
  rw [hex]
  tauto

theorem statusProperties_get_fixed (status : String) (S : SummarySpec) :
    (statusProperties status S).get "status" = some status ∧
    (statusProperties status S).get "targets" = some (Itoa S.TargetCount) ∧
    (statusProperties status S).get "deployed" = some (Itoa S.SuccessCount) := by
  unfold statusProperties
  refine ⟨?_, ?_, ?_⟩
  · rw [foldl_resultStep_get_other _ _ _ (fun kv _ h => targets_key_ne_status kv.1 h.symm)]
    simp [GoMap.get_set]
  · rw [foldl_resultStep_get_other _ _ _ (fun kv _ h => targets_key_ne_targets kv.1 h.symm)]
    simp [GoMap.get_set]
  · rw [foldl_resultStep_get_other _ _ _ (fun kv _ h => targets_key_ne_deployed kv.1 h.symm)]
    simp [GoMap.get_set]

theorem statusProperties_get_result (status : String) (S : SummarySpec) (k : String)
    (v : TargetResultSpec) (h : S.TargetResults.get k = some v) :
    (statusProperties status S).get ("targets." ++ k)
      = some (v.Status ++ " - " ++ v.Message) := by
  unfold statusProperties
  exact foldl_resultStep_get_mem _ S.TargetResults.nodup _ k v
    ((GoMap.get_eq_some_iff _ _ _).1 h)

/-! ## Lemmas on the paths of a pass -/

theorem AddFinalizer_of_contains (t : Target) (f : String) (h : ContainsFinalizer t f = true) :
    AddFinalizer t f = t := by
  unfold ContainsFinalizer at h
  rw [AddFinalizer, if_pos h]

theorem AddFinalizer_status (t : Target) (f : String) : (AddFinalizer t f).Status = t.Status := by
  unfold AddFinalizer
  split <;> rfl

theorem Reconcile_marked (w : World) (t : Target) (hget : w.getErr = none)
    (hw0 : w.writeErr 0 = none) :
    Reconcile w (some t) =
      if IsZero t.DeletionTimestamp then updateBranch w (markedPass w t)
      else removeBranch w (markedPass w t) := by
  simp only [Reconcile, Get, hget, StatusUpdate, hw0, markedPass]
  rfl

theorem finalizerStep_marked (w : World) (t : Target)
    (hw1 : ContainsFinalizer t myFinalizerName = false → w.writeErr 1 = none) :
    finalizerStep w (markedPass w t) = (none, readyPass w t) := by
  cases hc : ContainsFinalizer t myFinalizerName with
  | true =>
    have hc2 : ContainsFinalizer (ensureOperationState w t provisioningstates.Reconciling)
        myFinalizerName = true := hc
    simp [finalizerStep, markedPass, readyPass, buildInput, writesBeforeDeploy, preBuildTrace,
      hc, hc2, AddFinalizer_of_contains _ _ hc2]
  | false =>
    have hc2 : ContainsFinalizer (ensureOperationState w t provisioningstates.Reconciling)
        myFinalizerName = false := hc
    simp [finalizerStep, markedPass, readyPass, buildInput, writesBeforeDeploy, preBuildTrace,
      hc, hc2, Update, hw1 hc]
    rw [← AddFinalizer_status _ myFinalizerName]

theorem updateBranch_marked (w : World) (t : Target)
    (hw1 : ContainsFinalizer t myFinalizerName = false → w.writeErr 1 = none) :
    updateBranch w (markedPass w t) =
      match w.CreateSymphonyDeploymentFromTarget (buildInput w t) with
      | Except.error err =>
        updateTargetStatus w (builtPass w t) "deploymentCreationFailed"
          provisioningstates.Failed (selfFailedSummary err) (some err)
      | Except.ok deployment => deployStep w (builtPass w t) deployment := by
  simp only [updateBranch, finalizerStep_marked w t hw1]
  rfl

theorem StatusUpdate_ok (w : World) (p : Pass) (s : Target) (hs : p.stored = some s)
    (hw : w.writeErr p.writes = none) :
    StatusUpdate w p =
      (none, { p with
                stored := some { s with Status := p.target.Status }
                writes := p.writes + 1
                trace := p.trace ++ [Event.statusUpdate p.target.Status true] }) := by
  simp [StatusUpdate, hs, hw]

theorem StatusUpdate_fail (w : World) (p : Pass) (e : GoError) (hw : w.writeErr p.writes = some e) :
    StatusUpdate w p =
      (some e, { p with
                  writes := p.writes + 1
                  trace := p.trace ++ [Event.statusUpdate p.target.Status false] }) := by
  unfold StatusUpdate
  cases hs : p.stored <;> simp [hw]

theorem Update_ok (w : World) (p : Pass) (s : Target) (hs : p.stored = some s)
    (hw : w.writeErr p.writes = none) :
    Update w p =
      (none, { p with
                stored := some { p.target with Status := s.Status }
                writes := p.writes + 1
                trace := p.trace ++ [Event.update p.target.Finalizers true] }) := by
  simp [Update, hs, hw]

theorem Update_fail (w : World) (p : Pass) (e : GoError) (hw : w.writeErr p.writes = some e) :
    Update w p =
      (some e, { p with
                  writes := p.writes + 1
                  trace := p.trace ++ [Event.update p.target.Finalizers false] }) := by
  unfold Update
  cases hs : p.stored <;> simp [hw]

theorem match_result_eta (x : Option GoError × Pass) :
    (match x with
      | (some err, p) => (some err, p)
      | (none, p) => (none, p)) = x := by
  rcases x with ⟨_ | _, _⟩ <;> rfl

theorem updateTargetStatus_ok (w : World) (p : Pass) (s : Target) (status ps : String)
    (S : SummarySpec) (e : Option GoError) (hs : p.stored = some s)
    (hw : w.writeErr p.writes = none) :
    updateTargetStatus w p status ps S e =
      (none, { target := projectStatus w p.target status ps S e
               stored := some { s with Status := (projectStatus w p.target status ps S e).Status }
               writes := p.writes + 1
               trace := p.trace ++
                 [Event.statusUpdate (projectStatus w p.target status ps S e).Status true] }) := by
  unfold updateTargetStatus
  exact StatusUpdate_ok w _ s hs hw

theorem updateTargetStatus_fail (w : World) (p : Pass) (status ps : String)
    (S : SummarySpec) (e : Option GoError) (err : GoError)
    (hw : w.writeErr p.writes = some err) :
    updateTargetStatus w p status ps S e =
      (some err, { target := projectStatus w p.target status ps S e
                   stored := p.stored
                   writes := p.writes + 1
                   trace := p.trace ++
                     [Event.statusUpdate (projectStatus w p.target status ps S e).Status false] }) := by
  unfold updateTargetStatus
  exact StatusUpdate_fail w _ err hw

theorem projectStatus_properties (w : World) (t : Target) (status ps : String)
    (S : SummarySpec) (e : Option GoError) :
    (projectStatus w t status ps S e).Status.Properties = statusProperties status S := by
  unfold projectStatus
  exact updateProvisioningStatus_properties w _ ps e

theorem projectStatus_provisioning (w : World) (t : Target) (status ps : String)
    (S : SummarySpec) (e : Option GoError) :
    (projectStatus w t status ps S e).Status.ProvisioningStatus
      = (updateProvisioningStatus w t ps e).Status.ProvisioningStatus := by
  unfold projectStatus updateProvisioningStatus
  cases e with
  | none => rfl
  | some perr =>
    simp only
    cases w.ParseAsAPIError perr <;> rfl

theorem deployStep_ok (w : World) (p : Pass) (s : Target) (d : DeploymentSpec) (S : SummarySpec)
    (hlen : d.Assignments.len ≠ 0) (hd : w.Deploy d = (S, none)) (hs : p.stored = some s)
    (hw : w.writeErr p.writes = none) :
    deployStep w p d =
      updateTargetStatus w
        { target := p.target
          stored := some { p.target with Status := s.Status }
          writes := p.writes + 1
          trace := p.trace ++ [Event.deploy true] ++ [Event.update p.target.Finalizers true] }
        "OK" provisioningstates.Succeeded S none := by
  have hlen2 : (d.Assignments.len != 0) = true := by simpa using hlen
  have hu := Update_ok w
    { p with trace := p.trace ++ [Event.deploy (w.Deploy d).2.isNone] } s hs hw
  simp only [deployStep, hlen2, if_true, match_result_eta]
  rw [hu]
  simp only [hd]
  rfl

/-- C5: whatever the prior property bag of the Target and whatever the Summary, after
`updateTargetStatus` the keys of `status.properties` are exactly `status`, `targets`,
`deployed` and `targets.k` for the keys `k` of the Summary's results; no other key of the
prior bag survives. -/
theorem updateTargetStatus_property_keys (w : World) (p : Pass) (status provisioningStatus : String)
    (S : SummarySpec) (provisioningError : Option GoError) (key : String) :
    key ∈ (updateTargetStatus w p status provisioningStatus S
              provisioningError).2.target.Status.Properties.keys ↔
      key = "status" ∨ key = "targets" ∨ key = "deployed" ∨
        ∃ k ∈ S.TargetResults.keys, key = "targets." ++ k := by
  rw [updateTargetStatus_properties]
  exact statusProperties_keys status S key

/-- C6: for a Target without deletion intent whose descriptor has at least one assignment,
when Deploy succeeds with Summary `S` and every store write succeeds, the pass returns no
error and the final status (in memory and persisted) has state `Succeeded`, an empty error,
and a property bag holding exactly `status = "OK"`, `targets` and `deployed` as the decimal
renderings of the two counts, and `targets.k = status ++ " - " ++ message` for every
result `k` of `S`. -/
theorem reconcile_success_status (w : World) (t : Target) (d : DeploymentSpec) (S : SummarySpec)
    (hget : w.getErr = none) (hw : ∀ n, w.writeErr n = none)
    (hdel : IsZero t.DeletionTimestamp = true)
    (hb : w.CreateSymphonyDeploymentFromTarget (buildInput w t) = Except.ok d)
    (hlen : d.Assignments.len ≠ 0) (hd : w.Deploy d = (S, none)) :
    ∃ st : TargetStatus,
      (Reconcile w (some t)).2.target.Status = st ∧
      (Reconcile w (some t)).2.stored.map Target.Status = some st ∧
      (Reconcile w (some t)).1 = none ∧
      st.ProvisioningStatus.Status = provisioningstates.Succeeded ∧
      st.ProvisioningStatus.Error = { Code := "", Message := "", Target := "", Details := [] } ∧
      st.Properties.get "status" = some "OK" ∧
      st.Properties.get "targets" = some (Itoa S.TargetCount) ∧
      st.Properties.get "deployed" = some (Itoa S.SuccessCount) ∧
      (∀ k v, S.TargetResults.get k = some v →
        st.Properties.get ("targets." ++ k) = some (v.Status ++ " - " ++ v.Message)) ∧
      (∀ key, key ∈ st.Properties.keys ↔
        key = "status" ∨ key = "targets" ∨ key = "deployed" ∨
          ∃ k ∈ S.TargetResults.keys, key = "targets." ++ k) := by
  rw [Reconcile_marked w t hget (hw 0), if_pos hdel, updateBranch_marked w t (fun _ => hw 1)]
  simp only [hb]
  rw [deployStep_ok w (builtPass w t) (buildInput w t) d S hlen hd rfl (hw _),
    updateTargetStatus_ok w _ _ "OK" provisioningstates.Succeeded S none rfl (hw _)]
  refine ⟨_, rfl, ?_, rfl, ?_, ?_, ?_⟩
  · rfl
  · simp only [projectStatus_provisioning]
    exact updateProvisioningStatus_state _ _ _ _
  · simp only [projectStatus_provisioning]
    rfl
  · simp only [projectStatus_properties]
    exact ⟨(statusProperties_get_fixed "OK" S).1, (statusProperties_get_fixed "OK" S).2.1,
      (statusProperties_get_fixed "OK" S).2.2,
      fun k v h => statusProperties_get_result "OK" S k v h,
      fun key => statusProperties_keys "OK" S key⟩

/-- Witness for C6: the three-assignment scenario of the spec. -/
theorem reconcile_success_status_witness :
    successWorld.getErr = none ∧ IsZero liveTarget.DeletionTimestamp = true ∧
    successWorld.CreateSymphonyDeploymentFromTarget (buildInput successWorld liveTarget)
      = Except.ok threeDeployment ∧
    threeDeployment.Assignments.len = 3 ∧
    successWorld.Deploy threeDeployment = (threeSummary, none) ∧
    (Reconcile successWorld (some liveTarget)).2.target.Status.ProvisioningStatus.Status
      = "Succeeded" ∧
    (Reconcile successWorld (some liveTarget)).2.target.Status.Properties.get "status"
      = some "OK" ∧
    (Reconcile successWorld (some liveTarget)).2.target.Status.Properties.get "targets"
      = some "3" ∧
    (Reconcile successWorld (some liveTarget)).2.target.Status.Properties.get "deployed"
      = some "3" ∧
    (Reconcile successWorld (some liveTarget)).2.target.Status.Properties.get "targets.a"
      = some "Succeeded - " ∧
    (Reconcile successWorld (some liveTarget)).2.target.Status.Properties.get "targets.b"
      = some "Succeeded - " ∧
    (Reconcile successWorld (some liveTarget)).2.target.Status.Properties.get "targets.c"
      = some "Succeeded - " := by
  obtain ⟨st, h1, _, _, h4, _, h6, h7, h8, h9, _⟩ :=
    reconcile_success_status successWorld liveTarget threeDeployment threeSummary rfl
      (fun _ => rfl) rfl rfl (by decide) rfl
  rw [h1]
  exact ⟨rfl, rfl, rfl, by decide, rfl, h4, h6, h7, h8,
    h9 "a" { Status := "Succeeded", Message := "" } (by decide),
    h9 "b" { Status := "Succeeded", Message := "" } (by decide),
    h9 "c" { Status := "Succeeded", Message := "" } (by decide)⟩

theorem foldl_append_singleton {α β : Type} (f : α → β) (l : List α) (acc : List β) :
    l.foldl (fun details kv => details ++ [f kv]) acc = acc ++ l.map f := by
  induction l generalizing acc with
  | nil => simp
  | cons a l ih => simp [List.foldl_cons, ih]

theorem updateProvisioningStatus_details (w : World) (t : Target) (ps : String) (e : GoError)
    (pe : APIError) (h : w.ParseAsAPIError e = some pe) :
    (updateProvisioningStatus w t ps (some e)).Status.ProvisioningStatus.Error
      = { Code := pe.Code, Message := "Deployment failed.", Target := "Symphony",
          Details := pe.Spec.TargetResults.entries.map
            (fun kv => { Code := kv.2.Status, Message := kv.2.Message, Target := kv.1 }) } := by
  unfold updateProvisioningStatus
  simp only [h]
  have := foldl_append_singleton
    (fun kv : String × TargetResultSpec =>
      ({ Code := kv.2.Status, Message := kv.2.Message, Target := kv.1 } : TargetError))
    pe.Spec.TargetResults.entries []
  simp only [List.nil_append] at this
  simp only [setError, this]

/-- C7: when the provisioning error decodes as a structured API error with code `c` and
results `R`, `updateProvisioningStatus` sets the state it is given, `error.code = c`,
`error.message = "Deployment failed."`, `error.target = "Symphony"`, and `error.details`
holds exactly one entry per key `k` of `R` (as many entries as keys, pairwise distinct
targets, and `d` is an entry iff `d = {code: R[k].status, message: R[k].message, target: k}`
for a key `k`). -/
theorem updateProvisioningStatus_structured (w : World) (t : Target) (ps : String) (e : GoError)
    (c : String) (S : SummarySpec) (h : w.ParseAsAPIError e = some { Code := c, Spec := S }) :
    (updateProvisioningStatus w t ps (some e)).Status.ProvisioningStatus.Status = ps ∧
    (updateProvisioningStatus w t ps (some e)).Status.ProvisioningStatus.Error.Code = c ∧
    (updateProvisioningStatus w t ps (some e)).Status.ProvisioningStatus.Error.Message
      = "Deployment failed." ∧
    (updateProvisioningStatus w t ps (some e)).Status.ProvisioningStatus.Error.Target
      = "Symphony" ∧
    (updateProvisioningStatus w t ps (some e)).Status.ProvisioningStatus.Error.Details.length
      = S.TargetResults.len ∧
    ((updateProvisioningStatus w t ps (some e)).Status.ProvisioningStatus.Error.Details.map
      TargetError.Target).Nodup ∧
    (∀ d : TargetError,
      d ∈ (updateProvisioningStatus w t ps (some e)).Status.ProvisioningStatus.Error.Details ↔
        ∃ k v, S.TargetResults.get k = some v ∧
          d = { Code := v.Status, Message := v.Message, Target := k }) := by
  rw [updateProvisioningStatus_state, updateProvisioningStatus_details w t ps e _ h]
  refine ⟨rfl, rfl, rfl, rfl, ?_, ?_, ?_⟩
  · simp [GoMap.len]
  · have hn := S.TargetResults.nodup
    simpa [List.map_map, Function.comp_def] using hn
  · intro d
    simp only [List.mem_map, GoMap.get_eq_some_iff]
    constructor
    · rintro ⟨kv, hkv, rfl⟩
      exact ⟨kv.1, kv.2, hkv, rfl⟩
    · rintro ⟨k, v, hkv, rfl⟩
      exact ⟨(k, v), hkv, rfl⟩

/-- Witness for C7: one failing sub-target `x` with status `409` and message `conflict`
under code `409`; the state handed in is `Failed`. -/
theorem updateProvisioningStatus_structured_witness :
    conflictWorld.ParseAsAPIError conflictError
      = some { Code := "409", Spec := conflictSummary } ∧
    (updateProvisioningStatus conflictWorld liveTarget provisioningstates.Failed
      (some conflictError)).Status.ProvisioningStatus.Status = "Failed" ∧
    (updateProvisioningStatus conflictWorld liveTarget provisioningstates.Failed
      (some conflictError)).Status.ProvisioningStatus.Error.Code = "409" ∧
    (updateProvisioningStatus conflictWorld liveTarget provisioningstates.Failed
      (some conflictError)).Status.ProvisioningStatus.Error.Details
      = [{ Code := "409", Message := "conflict", Target := "x" }] ∧
    (Reconcile conflictWorld (some liveTarget)).2.target.Status.ProvisioningStatus
      = { OperationID := "op-1", Status := "Failed",
          Error := { Code := "409", Message := "Deployment failed.", Target := "Symphony",
                     Details := [{ Code := "409", Message := "conflict", Target := "x" }] } } := by
  have h := updateProvisioningStatus_structured conflictWorld liveTarget
    provisioningstates.Failed conflictError "409" conflictSummary rfl
  refine ⟨rfl, h.1, h.2.1, ?_, ?_⟩
  · decide
  · decide

/-- C8: when the provisioning error does not decode as a structured API error,
`updateProvisioningStatus` (a total function) sets `error.code = "500"`,
`error.message = "Deployment failed. "` followed by the raw error text, leaves
`error.target` and `error.details` empty, whatever error object the Target carried
before. -/
theorem updateProvisioningStatus_unstructured (w : World) (t : Target) (ps : String)
    (e : GoError) (h : w.ParseAsAPIError e = none) :
    (updateProvisioningStatus w t ps (some e)).Status.ProvisioningStatus.Error
      = { Code := "500", Message := "Deployment failed. " ++ e.msg, Target := "",
          Details := [] } := by
  unfold updateProvisioningStatus
  simp only [h]
  rfl

/-- Witness for C8: the error `connection refused` on a Target that carried a structured
error object before. -/
theorem updateProvisioningStatus_unstructured_witness :
    successWorld.ParseAsAPIError refusedError = none ∧
    failedTarget.Status.ProvisioningStatus.Error.Details ≠ [] ∧
    (updateProvisioningStatus successWorld failedTarget provisioningstates.Failed
      (some refusedError)).Status.ProvisioningStatus.Error
      = { Code := "500", Message := "Deployment failed. connection refused", Target := "",
          Details := [] } :=
  ⟨rfl, by decide,
    updateProvisioningStatus_unstructured successWorld failedTarget provisioningstates.Failed
      refusedError rfl⟩

theorem deployStep_zero (w : World) (p : Pass) (d : DeploymentSpec)
    (hlen : d.Assignments.len = 0) : deployStep w p d = (none, p) := by
  simp [deployStep, hlen]

theorem deployStep_fail (w : World) (p : Pass) (d : DeploymentSpec) (S : SummarySpec)
    (e : GoError) (hlen : d.Assignments.len ≠ 0) (hd : w.Deploy d = (S, some e)) :
    deployStep w p d =
      updateTargetStatus w { p with trace := p.trace ++ [Event.deploy false] }
        "Failed" provisioningstates.Failed S (some e) := by
  have hlen2 : (d.Assignments.len != 0) = true := by simpa using hlen
  simp only [deployStep, hlen2, if_true, hd]
  rfl

theorem updateTargetStatus_fst (w : World) (p : Pass) (s : Target) (status ps : String)
    (S : SummarySpec) (e : Option GoError) (hs : p.stored = some s) :
    (updateTargetStatus w p status ps S e).1 = w.writeErr p.writes := by
  cases hw : w.writeErr p.writes with
  | none => rw [updateTargetStatus_ok w p s status ps S e hs hw]
  | some err => rw [updateTargetStatus_fail w p status ps S e err hw]

theorem updateTargetStatus_target (w : World) (p : Pass) (status ps : String)
    (S : SummarySpec) (e : Option GoError) :
    (updateTargetStatus w p status ps S e).2.target = projectStatus w p.target status ps S e := by
  unfold updateTargetStatus
  rw [StatusUpdate_target]

theorem buildInput_state (w : World) (t : Target) :
    (buildInput w t).Status.ProvisioningStatus.Status = provisioningstates.Reconciling := by
  unfold buildInput
  rw [AddFinalizer_status]
  rfl

theorem preBuildTrace_no_deploy (w : World) (t : Target) (ok : Bool) :
    Event.deploy ok ∉ preBuildTrace w t ++ [Event.build] := by
  unfold preBuildTrace
  split <;> simp

/-- C2 (amended): for a Target without deletion intent whose built descriptor carries
zero assignments (fetch, in-progress write and finalizer write succeeding), one pass of
`Reconcile` returns no error, never invokes Deploy, and performs no final status write:
its calls are exactly the fetch, the in-progress status write, the finalizer write when
the token was absent, and the descriptor build; the only status write is the in-progress
one; and the status, in memory and persisted, is the one that write carried: the entry
status with state `Reconciling` and the annotated operation id. -/
theorem reconcile_zero_assignments (w : World) (t : Target) (d : DeploymentSpec)
    (hget : w.getErr = none) (hw0 : w.writeErr 0 = none)
    (hw1 : ContainsFinalizer t myFinalizerName = false → w.writeErr 1 = none)
    (hdel : IsZero t.DeletionTimestamp = true)
    (hb : w.CreateSymphonyDeploymentFromTarget (buildInput w t) = Except.ok d)
    (hlen : d.Assignments.len = 0) :
    (Reconcile w (some t)).1 = none ∧
    (Reconcile w (some t)).2.trace =
      [Event.get true,
        Event.statusUpdate
          (ensureOperationState w t provisioningstates.Reconciling).Status true]
      ++ (if ContainsFinalizer t myFinalizerName = true then []
          else [Event.update (t.Finalizers ++ [myFinalizerName]) true])
      ++ [Event.build] ∧
    (Reconcile w (some t)).2.writes
      = (if ContainsFinalizer t myFinalizerName = true then 1 else 2) ∧
    (∀ ok, Event.deploy ok ∉ (Reconcile w (some t)).2.trace) ∧
    (Reconcile w (some t)).2.trace.countP Event.isStatusWrite = 1 ∧
    (Reconcile w (some t)).2.target.Status
      = (ensureOperationState w t provisioningstates.Reconciling).Status ∧
    (Reconcile w (some t)).2.target.Status.ProvisioningStatus.Status
      = provisioningstates.Reconciling ∧
    (Reconcile w (some t)).2.target.Status.ProvisioningStatus.Error
      = t.Status.ProvisioningStatus.Error ∧
    (Reconcile w (some t)).2.target.Status.Properties = t.Status.Properties ∧
    (Reconcile w (some t)).2.stored = some (Reconcile w (some t)).2.target := by
  rw [Reconcile_marked w t hget hw0, if_pos hdel, updateBranch_marked w t hw1]
  simp only [hb]
  rw [deployStep_zero w _ d hlen]
  have htrace : (builtPass w t).trace =
      [Event.get true,
        Event.statusUpdate
          (ensureOperationState w t provisioningstates.Reconciling).Status true]
      ++ (if ContainsFinalizer t myFinalizerName = true then []
          else [Event.update (t.Finalizers ++ [myFinalizerName]) true])
      ++ [Event.build] := by
    cases hc : ContainsFinalizer t myFinalizerName with
    | true => simp [builtPass, preBuildTrace, hc]
    | false =>
      have hc2 : myFinalizerName ∉ t.Finalizers := by
        intro hmem
        have : ContainsFinalizer t myFinalizerName = true := by
          simpa [ContainsFinalizer] using hmem
        rw [hc] at this
        cases this
      simp [builtPass, preBuildTrace, hc, buildInput, AddFinalizer, ensureOperationState, hc2]
  have hstatus : (buildInput w t).Status
      = (ensureOperationState w t provisioningstates.Reconciling).Status := by
    unfold buildInput
    rw [AddFinalizer_status]
  refine ⟨rfl, htrace, rfl, fun ok => preBuildTrace_no_deploy w t ok, ?_, hstatus,
    buildInput_state w t, ?_, ?_, rfl⟩
  · show (builtPass w t).trace.countP Event.isStatusWrite = 1
    rw [htrace]
    cases ContainsFinalizer t myFinalizerName <;> simp [List.countP_cons, Event.isStatusWrite]
  · show (buildInput w t).Status.ProvisioningStatus.Error = _
    rw [hstatus]
    rfl
  · show (buildInput w t).Status.Properties = _
    rw [hstatus]
    rfl

/-- Witness for C2 (amended): the live Target under a descriptor without assignments. -/
theorem reconcile_zero_assignments_witness :
    noopWorld.getErr = none ∧ IsZero liveTarget.DeletionTimestamp = true ∧
    (Reconcile noopWorld (some liveTarget)).1 = none ∧
    (Reconcile noopWorld (some liveTarget)).2.writes = 2 ∧
    (Reconcile noopWorld (some liveTarget)).2.trace.countP Event.isStatusWrite = 1 ∧
    (Reconcile noopWorld (some liveTarget)).2.target.Status.ProvisioningStatus.Status
      = "Reconciling" := by
  have h := reconcile_zero_assignments noopWorld liveTarget { Assignments := GoMap.empty }
    rfl rfl (fun _ => rfl) rfl rfl rfl
  exact ⟨rfl, rfl, h.1, h.2.2.1, h.2.2.2.2.1, h.2.2.2.2.2.2.1⟩

/-- C2 fails as stated: with a descriptor without assignments and every collaborator
succeeding, Deploy is not invoked but the final state is `Reconciling`, not `Succeeded`. -/
theorem reconcile_zero_assignments_not_succeeded :
    IsZero liveTarget.DeletionTimestamp = true ∧
    noopWorld.CreateSymphonyDeploymentFromTarget (buildInput noopWorld liveTarget)
      = Except.ok { Assignments := GoMap.empty } ∧
    noopWorld.getErr = none ∧ noopWorld.writeErr 0 = none ∧ noopWorld.writeErr 1 = none ∧
    (Reconcile noopWorld (some liveTarget)).1 = none ∧
    (Reconcile noopWorld (some liveTarget)).2.target.Status.ProvisioningStatus.Status
      ≠ provisioningstates.Succeeded ∧
    (Reconcile noopWorld (some liveTarget)).2.stored.map
      (fun s => s.Status.ProvisioningStatus.Status) = some "Reconciling" :=
  ⟨rfl, rfl, rfl, rfl, rfl, by decide, by decide, by decide⟩

/-- C3 (amended): on the reconcile path, whenever descriptor building fails with error
`e`, or Deploy fails with error `e`, the last call of the pass is a status write carrying
state `Failed` and the error object classified from `e`, and `Reconcile` returns the
result of that write: no error when it succeeds, the write's own error when it fails. The
error `e` is not returned; it is recorded in the status: in memory always, and persisted
when the write succeeds (when the write fails the persisted status stays the in-progress
one). -/
theorem reconcile_failure_returns_write_result (w : World) (t : Target) (e : GoError)
    (hget : w.getErr = none) (hw0 : w.writeErr 0 = none)
    (hw1 : ContainsFinalizer t myFinalizerName = false → w.writeErr 1 = none)
    (hdel : IsZero t.DeletionTimestamp = true)
    (hfail : w.CreateSymphonyDeploymentFromTarget (buildInput w t) = Except.error e ∨
      ∃ d S, w.CreateSymphonyDeploymentFromTarget (buildInput w t) = Except.ok d ∧
        d.Assignments.len ≠ 0 ∧ w.Deploy d = (S, some e)) :
    (Reconcile w (some t)).1 = w.writeErr (writesBeforeDeploy t) ∧
    (Reconcile w (some t)).2.writes = writesBeforeDeploy t + 1 ∧
    (Reconcile w (some t)).2.trace.getLast?
      = some (Event.statusUpdate (Reconcile w (some t)).2.target.Status
          (w.writeErr (writesBeforeDeploy t)).isNone) ∧
    (Reconcile w (some t)).2.target.Status.ProvisioningStatus.Status
      = provisioningstates.Failed ∧
    (Reconcile w (some t)).2.target.Status.ProvisioningStatus.Error
      = (updateProvisioningStatus w t provisioningstates.Failed
          (some e)).Status.ProvisioningStatus.Error ∧
    (Reconcile w (some t)).2.target.Status.ProvisioningStatus.Error ≠ default ∧
    (w.writeErr (writesBeforeDeploy t) = none →
      (Reconcile w (some t)).2.stored.map Target.Status
        = some (Reconcile w (some t)).2.target.Status) ∧
    (∀ e2, w.writeErr (writesBeforeDeploy t) = some e2 →
      (Reconcile w (some t)).2.stored.map Target.Status
        = some (ensureOperationState w t provisioningstates.Reconciling).Status) := by
  rw [Reconcile_marked w t hget hw0, if_pos hdel, updateBranch_marked w t hw1]
  have hstatus : (buildInput w t).Status
      = (ensureOperationState w t provisioningstates.Reconciling).Status := by
    unfold buildInput
    rw [AddFinalizer_status]
  have key : ∀ (p : Pass) (status : String) (S : SummarySpec),
      p.stored = some (buildInput w t) → p.writes = writesBeforeDeploy t →
      (updateTargetStatus w p status provisioningstates.Failed S (some e)).1
        = w.writeErr (writesBeforeDeploy t) ∧
      (updateTargetStatus w p status provisioningstates.Failed S (some e)).2.writes
        = writesBeforeDeploy t + 1 ∧
      (updateTargetStatus w p status provisioningstates.Failed S (some e)).2.trace.getLast?
        = some (Event.statusUpdate
            (updateTargetStatus w p status provisioningstates.Failed S
              (some e)).2.target.Status
            (w.writeErr (writesBeforeDeploy t)).isNone) ∧
      (updateTargetStatus w p status provisioningstates.Failed S
        (some e)).2.target.Status.ProvisioningStatus.Status = provisioningstates.Failed ∧
      (updateTargetStatus w p status provisioningstates.Failed S
        (some e)).2.target.Status.ProvisioningStatus.Error
        = (updateProvisioningStatus w t provisioningstates.Failed
            (some e)).Status.ProvisioningStatus.Error ∧
      (updateTargetStatus w p status provisioningstates.Failed S
        (some e)).2.target.Status.ProvisioningStatus.Error ≠ default ∧
      (w.writeErr (writesBeforeDeploy t) = none →
        (updateTargetStatus w p status provisioningstates.Failed S
          (some e)).2.stored.map Target.Status
          = some (updateTargetStatus w p status provisioningstates.Failed S
              (some e)).2.target.Status) ∧
      (∀ e2, w.writeErr (writesBeforeDeploy t) = some e2 →
        (updateTargetStatus w p status provisioningstates.Failed S
          (some e)).2.stored.map Target.Status
          = some (ensureOperationState w t provisioningstates.Reconciling).Status) := by
    intro p status S hs hwr
    have hprov : ∀ x : Target,
        (projectStatus w x status provisioningstates.Failed S
          (some e)).Status.ProvisioningStatus.Error
          = (updateProvisioningStatus w t provisioningstates.Failed
              (some e)).Status.ProvisioningStatus.Error := by
      intro x
      rw [projectStatus_provisioning]
      unfold updateProvisioningStatus
      simp only
      cases w.ParseAsAPIError e <;> rfl
    have hstate : ∀ x : Target,
        (projectStatus w x status provisioningstates.Failed S
          (some e)).Status.ProvisioningStatus.Status = provisioningstates.Failed := by
      intro x
      rw [projectStatus_provisioning]
      exact updateProvisioningStatus_state _ _ _ _
    have hne : ∀ x : Target,
        (projectStatus w x status provisioningstates.Failed S
          (some e)).Status.ProvisioningStatus.Error ≠ default := by
      intro x
      rw [projectStatus_provisioning]
      exact updateProvisioningStatus_error_some _ _ _ _
    cases hw : w.writeErr (writesBeforeDeploy t) with
    | none =>
      rw [updateTargetStatus_ok w p (buildInput w t) status _ S _ hs (by rw [hwr]; exact hw)]
      refine ⟨rfl, by simp [hwr], by simp, hstate _, hprov _, hne _, fun _ => rfl, ?_⟩
      intro e2 h2
      cases h2
    | some e1 =>
      rw [updateTargetStatus_fail w p status _ S _ e1 (by rw [hwr]; exact hw)]
      refine ⟨rfl, by simp [hwr], by simp, hstate _, hprov _, hne _, ?_, ?_⟩
      · intro h2
        cases h2
      · intro e2 _
        show p.stored.map Target.Status = _
        rw [hs]
        show some (buildInput w t).Status = _
        rw [hstatus]
  rcases hfail with hb | ⟨d, S, hb, hlen, hd⟩
  · simp only [hb]
    exact key _ _ _ rfl rfl
  · simp only [hb]
    rw [deployStep_fail w _ d S e hlen hd]
    exact key _ _ _ rfl rfl

/-- Witness for C3 (amended): Deploy fails with a structured error while every store write
succeeds; the pass returns no error and persists the `Failed` status. In a second run the
`Failed` status write fails: its error is returned and the persisted state stays
`Reconciling`. -/
theorem reconcile_failure_returns_write_result_witness :
    conflictWorld.getErr = none ∧ IsZero liveTarget.DeletionTimestamp = true ∧
    conflictWorld.Deploy threeDeployment = (conflictSummary, some conflictError) ∧
    conflictWorld.writeErr (writesBeforeDeploy liveTarget) = none ∧
    (Reconcile conflictWorld (some liveTarget)).1 = none ∧
    (Reconcile conflictWorld (some liveTarget)).2.target.Status.ProvisioningStatus.Status
      = "Failed" ∧
    (Reconcile conflictWorld (some liveTarget)).2.stored.map Target.Status
      = some (Reconcile conflictWorld (some liveTarget)).2.target.Status ∧
    lostWriteWorld.writeErr (writesBeforeDeploy liveTarget) = some refusedError ∧
    (Reconcile lostWriteWorld (some liveTarget)).1 = some refusedError ∧
    (Reconcile lostWriteWorld (some liveTarget)).2.stored.map
      (fun s => s.Status.ProvisioningStatus.Status) = some "Reconciling" := by
  have h := reconcile_failure_returns_write_result conflictWorld liveTarget conflictError
    rfl rfl (fun _ => rfl) rfl
    (Or.inr ⟨threeDeployment, conflictSummary, rfl, by decide, rfl⟩)
  have h2 := reconcile_failure_returns_write_result lostWriteWorld liveTarget conflictError
    rfl rfl (fun _ => rfl) rfl
    (Or.inr ⟨threeDeployment, conflictSummary, rfl, by decide, rfl⟩)
  exact ⟨rfl, rfl, rfl, rfl, h.1, h.2.2.2.1, h.2.2.2.2.2.2.1 rfl, rfl, h2.1, by decide⟩

/-- C3 fails as stated: the descriptor build fails with `badSpecError` (respectively Deploy
fails with `conflictError`), the `Failed` status write succeeds, and `Reconcile` returns
no error instead of the build (respectively Deploy) error. -/
theorem reconcile_failure_not_returned :
    IsZero liveTarget.DeletionTimestamp = true ∧
    badSpecWorld.CreateSymphonyDeploymentFromTarget (buildInput badSpecWorld liveTarget)
      = Except.error badSpecError ∧
    (Reconcile badSpecWorld (some liveTarget)).2.stored.map
      (fun s => s.Status.ProvisioningStatus.Status) = some "Failed" ∧
    (Reconcile badSpecWorld (some liveTarget)).1 ≠ some badSpecError ∧
    (Reconcile badSpecWorld (some liveTarget)).1 = none ∧
    conflictWorld.Deploy threeDeployment = (conflictSummary, some conflictError) ∧
    (Reconcile conflictWorld (some liveTarget)).1 ≠ some conflictError ∧
    (Reconcile conflictWorld (some liveTarget)).1 = none :=
  ⟨rfl, rfl, by decide, by decide, by decide, rfl, by decide, by decide⟩

theorem removeStep_fields (w : World) (p : Pass) :
    (removeStep w p).target = p.target ∧ (removeStep w p).stored = p.stored ∧
      (removeStep w p).writes = p.writes := by
  unfold removeStep
  simp only
  split <;> exact ⟨rfl, rfl, rfl⟩

theorem RemoveFinalizer_not_contains (t : Target) (f : String) :
    ContainsFinalizer (RemoveFinalizer t f) f = false := by
  simp [ContainsFinalizer, RemoveFinalizer]

/-- C4: for every Target with deletion intent set and the finalizer token present, and
for every outcome of descriptor building and of Remove, one pass of `Reconcile` whose
fetch and store writes succeed returns no error and leaves the persisted object without
the finalizer token (its other finalizers untouched). -/
theorem reconcile_deletion_releases_finalizer (w : World) (t : Target)
    (hget : w.getErr = none) (hw0 : w.writeErr 0 = none) (hw1 : w.writeErr 1 = none)
    (hdel : IsZero t.DeletionTimestamp = false)
    (hfin : ContainsFinalizer t myFinalizerName = true) :
    (Reconcile w (some t)).1 = none ∧
    ∃ s, (Reconcile w (some t)).2.stored = some s ∧
      ContainsFinalizer s myFinalizerName = false ∧
      s.Finalizers = t.Finalizers.filter (fun f => f != myFinalizerName) := by
  have hfin2 : ContainsFinalizer (markedPass w t).target myFinalizerName = true := hfin
  obtain ⟨h1, h2, h3⟩ := removeStep_fields w (markedPass w t)
  have hu := Update_ok w
    { removeStep w (markedPass w t) with
      target := RemoveFinalizer (removeStep w (markedPass w t)).target myFinalizerName }
    (ensureOperationState w t provisioningstates.Reconciling) h2 (by rw [h3]; exact hw1)
  rw [Reconcile_marked w t hget hw0, hdel]
  simp only [Bool.false_eq_true, if_false, removeBranch, hfin2, if_true, match_result_eta]
  rw [hu]
  refine ⟨rfl, _, rfl, ?_, ?_⟩
  · simp only [h1]
    exact RemoveFinalizer_not_contains _ _
  · simp only [h1]
    rfl

/-- Witness for C4: Remove fails, and so does Deploy, yet the finalizer is released. -/
theorem reconcile_deletion_releases_finalizer_witness :
    IsZero deletingTarget.DeletionTimestamp = false ∧
    ContainsFinalizer deletingTarget myFinalizerName = true ∧
    (refusedWorld.Remove threeDeployment).2 = some refusedError ∧
    (Reconcile refusedWorld (some deletingTarget)).1 = none ∧
    (Reconcile refusedWorld (some deletingTarget)).2.stored.map Target.Finalizers
      = some ["other"] ∧
    (Reconcile badSpecWorld (some deletingTarget)).2.stored.map Target.Finalizers
      = some ["other"] := by
  have h := reconcile_deletion_releases_finalizer refusedWorld deletingTarget rfl rfl rfl
    rfl (by decide)
  exact ⟨rfl, by decide, rfl, h.1, by decide, by decide⟩

/-! ## Lemmas on traces -/

theorem StatusUpdate_trace (w : World) (p : Pass) :
    ∃ l, (StatusUpdate w p).2.trace = p.trace ++ l := by
  unfold StatusUpdate
  split <;> exact ⟨_, rfl⟩

theorem Update_trace (w : World) (p : Pass) : ∃ l, (Update w p).2.trace = p.trace ++ l := by
  unfold Update
  split <;> exact ⟨_, rfl⟩

theorem updateTargetStatus_trace (w : World) (p : Pass) (status ps : String) (S : SummarySpec)
    (e : Option GoError) : ∃ l, (updateTargetStatus w p status ps S e).2.trace = p.trace ++ l := by
  unfold updateTargetStatus
  exact StatusUpdate_trace w _

theorem deployStep_trace (w : World) (p : Pass) (d : DeploymentSpec) :
    ∃ l, (deployStep w p d).2.trace = p.trace ++ l := by
  unfold deployStep
  split
  · simp only [match_result_eta]
    split
    · obtain ⟨l, hl⟩ := updateTargetStatus_trace w
        { p with trace := p.trace ++ [Event.deploy (w.Deploy d).2.isNone] }
        "Failed" provisioningstates.Failed ‹SummarySpec› (some ‹GoError›)
      exact ⟨_, by rw [hl, List.append_assoc]⟩
    · obtain ⟨l1, hl1⟩ := Update_trace w
        { p with trace := p.trace ++ [Event.deploy (w.Deploy d).2.isNone] }
      split
      · rename_i hu
        obtain ⟨l2, hl2⟩ := updateTargetStatus_trace w ‹Pass› "State Failed"
          provisioningstates.Failed ‹SummarySpec› (some ‹GoError›)
        rw [hu] at hl1
        exact ⟨_, by rw [hl2, hl1, List.append_assoc, List.append_assoc]⟩
      · rename_i hu
        obtain ⟨l2, hl2⟩ := updateTargetStatus_trace w ‹Pass› "OK"
          provisioningstates.Succeeded ‹SummarySpec› none
        rw [hu] at hl1
        exact ⟨_, by rw [hl2, hl1, List.append_assoc, List.append_assoc]⟩
  · exact ⟨[], by simp⟩

theorem finalizerStep_trace (w : World) (p : Pass) :
    ∃ l, (finalizerStep w p).2.trace = p.trace ++ l := by
  unfold finalizerStep
  split
  · exact Update_trace w _
  · exact ⟨[], by simp⟩

theorem updateBranch_trace (w : World) (p : Pass) :
    ∃ l, (updateBranch w p).2.trace = p.trace ++ l := by
  obtain ⟨l1, hl1⟩ := finalizerStep_trace w p
  unfold updateBranch
  split
  · rename_i hf
    rw [hf] at hl1
    exact ⟨l1, hl1⟩
  · rename_i q hf
    rw [hf] at hl1
    have hl1q : q.trace = p.trace ++ l1 := hl1
    simp only
    split
    · obtain ⟨l2, hl2⟩ := updateTargetStatus_trace w
        { q with trace := q.trace ++ [Event.build] } "deploymentCreationFailed"
        provisioningstates.Failed (selfFailedSummary ‹GoError›) (some ‹GoError›)
      refine ⟨l1 ++ ([Event.build] ++ l2), ?_⟩
      rw [hl2]
      simp only [hl1q, List.append_assoc]
    · obtain ⟨l2, hl2⟩ := deployStep_trace w
        { q with trace := q.trace ++ [Event.build] } ‹DeploymentSpec›
      refine ⟨l1 ++ ([Event.build] ++ l2), ?_⟩
      rw [hl2]
      simp only [hl1q, List.append_assoc]

theorem removeStep_trace (w : World) (p : Pass) :
    ∃ l, (removeStep w p).trace = p.trace ++ l := by
  unfold removeStep
  simp only
  split
  · exact ⟨_, rfl⟩
  · exact ⟨_, by rw [List.append_assoc]⟩

theorem removeBranch_trace (w : World) (p : Pass) :
    ∃ l, (removeBranch w p).2.trace = p.trace ++ l := by
  unfold removeBranch
  split
  · simp only [match_result_eta]
    obtain ⟨l1, hl1⟩ := removeStep_trace w p
    obtain ⟨l2, hl2⟩ := Update_trace w
      { removeStep w p with target := RemoveFinalizer (removeStep w p).target myFinalizerName }
    refine ⟨l1 ++ l2, ?_⟩
    rw [hl2]
    simp only [hl1, List.append_assoc]
  · exact ⟨[], by simp⟩

theorem guarded_of_no_downstream (w : World) (t : Target) (tr : List Event)
    (h : ∀ ev ∈ tr, ev.isDownstream = false) (pre : List Event) (ev : Event)
    (post : List Event) (heq : tr = pre ++ ev :: post) (hd : ev.isDownstream = true) :
    ∃ m ∈ pre, m.isMark w t = true := by
  have := h ev (by rw [heq]; simp)
  rw [this] at hd
  cases hd

theorem guarded_of_marked (w : World) (t : Target) (a b : Event) (l : List Event)
    (ha : a.isDownstream = false) (hb : b.isDownstream = false) (hm : b.isMark w t = true)
    (pre : List Event) (ev : Event) (post : List Event)
    (heq : a :: b :: l = pre ++ ev :: post) (hd : ev.isDownstream = true) :
    ∃ m ∈ pre, m.isMark w t = true := by
  match pre, heq with
  | [], heq =>
    simp only [List.nil_append, List.cons.injEq] at heq
    rw [← heq.1, ha] at hd
    cases hd
  | [x], heq =>
    simp only [List.cons_append, List.nil_append, List.cons.injEq] at heq
    rw [← heq.2.1, hb] at hd
    cases hd
  | x :: y :: rest, heq =>
    simp only [List.cons_append, List.cons.injEq] at heq
    exact ⟨b, by rw [heq.2.1]; simp, hm⟩

/-- C10: in every pass of `Reconcile`, each Deploy call, Remove call and object `Update`
is preceded in the trace by a succeeded status write carrying state `Reconciling` and the
operation id of the Target's annotation; and if the in-progress status write fails with
error `e`, the pass returns `e` after exactly the fetch and that one failed write: no
downstream call, no further store write, the persisted object unchanged. -/
theorem reconcile_in_progress_write_first (w : World) (t : Target) :
    (∀ pre ev post, (Reconcile w (some t)).2.trace = pre ++ ev :: post →
      ev.isDownstream = true → ∃ m ∈ pre, m.isMark w t = true) ∧
    (∀ e, w.getErr = none → w.writeErr 0 = some e →
      (Reconcile w (some t)).1 = some e ∧
      (Reconcile w (some t)).2.trace =
        [Event.get true,
          Event.statusUpdate
            (ensureOperationState w t provisioningstates.Reconciling).Status false] ∧
      (Reconcile w (some t)).2.writes = 1 ∧
      (Reconcile w (some t)).2.stored = some t) := by
  have hfail : ∀ e, w.getErr = none → w.writeErr 0 = some e →
      Reconcile w (some t) = (some e,
        { target := ensureOperationState w t provisioningstates.Reconciling
          stored := some t
          writes := 1
          trace := [Event.get true,
            Event.statusUpdate
              (ensureOperationState w t provisioningstates.Reconciling).Status false] }) := by
    intro e hget hw0
    simp only [Reconcile, Get, hget, StatusUpdate, hw0]
    rfl
  refine ⟨?_, fun e hget hw0 => by rw [hfail e hget hw0]; exact ⟨rfl, rfl, rfl, rfl⟩⟩
  cases hget : w.getErr with
  | some e =>
    have hrun : (Reconcile w (some t)).2.trace = [Event.get false] := by
      simp only [Reconcile, Get, hget]
      rfl
    intro pre ev post heq hd
    rw [hrun] at heq
    exact guarded_of_no_downstream w t _ (by simp [Event.isDownstream]) pre ev post heq hd
  | none =>
    cases hw0 : w.writeErr 0 with
    | some e =>
      intro pre ev post heq hd
      rw [hfail e hget hw0] at heq
      exact guarded_of_no_downstream w t _ (by simp [Event.isDownstream]) pre ev post heq hd
    | none =>
      have hex : ∃ l, (Reconcile w (some t)).2.trace = (markedPass w t).trace ++ l := by
        rw [Reconcile_marked w t hget hw0]
        split
        · exact updateBranch_trace w _
        · exact removeBranch_trace w _
      obtain ⟨l, hl⟩ := hex
      intro pre ev post heq hd
      rw [hl] at heq
      exact guarded_of_marked w t (Event.get true)
        (Event.statusUpdate (ensureOperationState w t provisioningstates.Reconciling).Status true)
        l rfl rfl (by simp [Event.isMark, ensureOperationState]) pre ev post heq hd

/-- Witness for C10: the in-progress status write fails with a conflict. -/
theorem reconcile_in_progress_write_first_witness :
    conflictingWriteWorld.getErr = none ∧
    conflictingWriteWorld.writeErr 0 = some { msg := "conflict", isNotFound := false } ∧
    (Reconcile conflictingWriteWorld (some liveTarget)).1
      = some { msg := "conflict", isNotFound := false } ∧
    (Reconcile conflictingWriteWorld (some liveTarget)).2.writes = 1 ∧
    (Reconcile conflictingWriteWorld (some liveTarget)).2.stored = some liveTarget :=
  have h := (reconcile_in_progress_write_first conflictingWriteWorld liveTarget).2
    { msg := "conflict", isNotFound := false } rfl rfl
  ⟨rfl, rfl, h.1, h.2.2.1, h.2.2.2⟩

/-! ## Lemmas on the status shapes -/

theorem StatusUpdate_inv (w : World) (e : ErrorType) (Q : TargetStatus → Prop)
    (hQ : ∀ st, StatusOK e st → Q st) (p : Pass)
    (ht : StatusOK e p.target.Status) (hs : StoredSat Q p) :
    StatusOK e (StatusUpdate w p).2.target.Status ∧ StoredSat Q (StatusUpdate w p).2 := by
  refine ⟨by rw [StatusUpdate_target]; exact ht, ?_⟩
  unfold StatusUpdate
  split
  · intro s hsome
    simp only [Option.some.injEq] at hsome
    subst hsome
    exact hQ _ ht
  · exact hs
  · exact hs

theorem Update_inv (w : World) (e : ErrorType) (Q : TargetStatus → Prop) (p : Pass)
    (ht : StatusOK e p.target.Status) (hs : StoredSat Q p) :
    StatusOK e (Update w p).2.target.Status ∧ StoredSat Q (Update w p).2 := by
  refine ⟨by rw [Update_target]; exact ht, ?_⟩
  cases hw : w.writeErr p.writes with
  | some err =>
    rw [Update_fail w p err hw]
    exact hs
  | none =>
    cases hst : p.stored with
    | none =>
      intro s hsome
      simp [Update, hst, hw] at hsome
    | some s0 =>
      rw [Update_ok w p s0 hst hw]
      intro s hsome
      simp only [Option.some.injEq] at hsome
      subst hsome
      exact hs s0 hst

theorem projectStatus_failed (w : World) (e : ErrorType) (target : Target) (status : String)
    (S : SummarySpec) (err : GoError) :
    StatusOK e (projectStatus w target status provisioningstates.Failed S (some err)).Status := by
  refine Or.inl ⟨?_, ?_⟩
  · rw [projectStatus_provisioning]
    exact updateProvisioningStatus_state _ _ _ _
  · rw [projectStatus_provisioning]
    exact updateProvisioningStatus_error_some _ _ _ _

theorem projectStatus_succeeded (w : World) (e : ErrorType) (target : Target) (status : String)
    (S : SummarySpec) :
    StatusOK e (projectStatus w target status provisioningstates.Succeeded S none).Status := by
  refine Or.inr (Or.inl ⟨?_, ?_⟩)
  · rw [projectStatus_provisioning]
    exact updateProvisioningStatus_state _ _ _ _
  · rw [projectStatus_provisioning]
    rfl

theorem updateTargetStatus_inv (w : World) (e : ErrorType) (Q : TargetStatus → Prop)
    (hQ : ∀ st, StatusOK e st → Q st) (p : Pass) (status ps : String)
    (S : SummarySpec) (err : Option GoError)
    (hproj : StatusOK e (projectStatus w p.target status ps S err).Status)
    (hs : StoredSat Q p) :
    StatusOK e (updateTargetStatus w p status ps S err).2.target.Status ∧
      StoredSat Q (updateTargetStatus w p status ps S err).2 := by
  unfold updateTargetStatus
  exact StatusUpdate_inv w e Q hQ _ hproj hs

theorem deployStep_inv (w : World) (e : ErrorType) (Q : TargetStatus → Prop)
    (hQ : ∀ st, StatusOK e st → Q st) (p : Pass) (d : DeploymentSpec)
    (ht : StatusOK e p.target.Status) (hs : StoredSat Q p) :
    StatusOK e (deployStep w p d).2.target.Status ∧ StoredSat Q (deployStep w p d).2 := by
  unfold deployStep
  split
  · simp only [match_result_eta]
    split
    · exact updateTargetStatus_inv w e Q hQ _ _ _ _ _ (projectStatus_failed w e _ _ _ _) hs
    · have hu := Update_inv w e Q
        { p with trace := p.trace ++ [Event.deploy (w.Deploy d).2.isNone] } ht hs
      split
      · rename_i heq
        rw [heq] at hu
        exact updateTargetStatus_inv w e Q hQ _ _ _ _ _ (projectStatus_failed w e _ _ _ _) hu.2
      · rename_i heq
        rw [heq] at hu
        exact updateTargetStatus_inv w e Q hQ _ _ _ _ _ (projectStatus_succeeded w e _ _ _) hu.2
  · exact ⟨ht, hs⟩

theorem updateBranch_inv (w : World) (e : ErrorType) (Q : TargetStatus → Prop)
    (hQ : ∀ st, StatusOK e st → Q st) (p : Pass)
    (ht : StatusOK e p.target.Status) (hs : StoredSat Q p) :
    StatusOK e (updateBranch w p).2.target.Status ∧ StoredSat Q (updateBranch w p).2 := by
  have hf : StatusOK e (finalizerStep w p).2.target.Status ∧
      StoredSat Q (finalizerStep w p).2 := by
    unfold finalizerStep
    split
    · exact Update_inv w e Q _ (by rw [AddFinalizer_status]; exact ht) hs
    · exact ⟨ht, hs⟩
  unfold updateBranch
  split
  · rename_i heq
    rw [heq] at hf
    exact hf
  · rename_i q heq
    rw [heq] at hf
    simp only
    split
    · exact updateTargetStatus_inv w e Q hQ _ _ _ _ _ (projectStatus_failed w e _ _ _ _) hf.2
    · exact deployStep_inv w e Q hQ _ _ hf.1 hf.2

theorem removeBranch_inv (w : World) (e : ErrorType) (Q : TargetStatus → Prop) (p : Pass)
    (ht : StatusOK e p.target.Status) (hs : StoredSat Q p) :
    StatusOK e (removeBranch w p).2.target.Status ∧ StoredSat Q (removeBranch w p).2 := by
  unfold removeBranch
  split
  · simp only [match_result_eta]
    obtain ⟨h1, h2, _⟩ := removeStep_fields w p
    refine Update_inv w e Q _ ?_ ?_
    · show StatusOK _ (RemoveFinalizer (removeStep w p).target myFinalizerName).Status
      rw [h1]
      exact ht
    · intro s hsome
      exact hs s (by rw [← h2]; exact hsome)
  · exact ⟨ht, hs⟩

theorem Reconcile_inv_marked (w : World) (t : Target) (hget : w.getErr = none)
    (hw0 : w.writeErr 0 = none) :
    StatusOK t.Status.ProvisioningStatus.Error (Reconcile w (some t)).2.target.Status ∧
      StoredSat (StatusOK t.Status.ProvisioningStatus.Error) (Reconcile w (some t)).2 := by
  have hmark : StatusOK t.Status.ProvisioningStatus.Error
      (ensureOperationState w t provisioningstates.Reconciling).Status :=
    Or.inr (Or.inr ⟨rfl, rfl⟩)
  have hstored : StoredSat (StatusOK t.Status.ProvisioningStatus.Error) (markedPass w t) := by
    intro s hsome
    simp only [markedPass, Option.some.injEq] at hsome
    subst hsome
    exact hmark
  rw [Reconcile_marked w t hget hw0]
  split
  · exact updateBranch_inv w _ _ (fun _ h => h) _ hmark hstored
  · exact removeBranch_inv w _ _ _ hmark hstored

theorem Reconcile_unmarked (w : World) (t : Target)
    (h : w.getErr ≠ none ∨ w.writeErr 0 ≠ none) :
    (Reconcile w (some t)).2.stored = some t ∧
    ((Reconcile w (some t)).2.target = default ∨
      (Reconcile w (some t)).2.target
        = ensureOperationState w t provisioningstates.Reconciling) := by
  cases hget : w.getErr with
  | some e =>
    simp [Reconcile, Get, hget]
  | none =>
    cases hw0 : w.writeErr 0 with
    | some e =>
      simp [Reconcile, Get, hget, StatusUpdate, hw0]
    | none =>
      rcases h with h | h
      · exact absurd hget h
      · exact absurd hw0 h

theorem StatusOK_iff (st : TargetStatus) (h : StatusOK default st) :
    st.ProvisioningStatus.Error ≠ default ↔
      st.ProvisioningStatus.Status = provisioningstates.Failed := by
  rcases h with ⟨h1, h2⟩ | ⟨h1, h2⟩ | ⟨h1, h2⟩
  · exact ⟨fun _ => h1, fun _ => h2⟩
  · rw [h1, h2]
    exact ⟨fun h => absurd rfl h, fun h => absurd h (by decide)⟩
  · rw [h1, h2]
    exact ⟨fun h => absurd rfl h, fun h => absurd h (by decide)⟩

theorem StatusOK_shapes (e : ErrorType) (st : TargetStatus) (h : StatusOK e st) :
    (st.ProvisioningStatus.Status = provisioningstates.Failed →
      st.ProvisioningStatus.Error ≠ default) ∧
    (st.ProvisioningStatus.Status = provisioningstates.Succeeded →
      st.ProvisioningStatus.Error = default) ∧
    (st.ProvisioningStatus.Status = provisioningstates.Reconciling →
      st.ProvisioningStatus.Error = e) := by
  rcases h with ⟨h1, h2⟩ | ⟨h1, h2⟩ | ⟨h1, h2⟩
  · exact ⟨fun _ => h2, fun hf => absurd (h1 ▸ hf) (by decide),
      fun hf => absurd (h1 ▸ hf) (by decide)⟩
  · exact ⟨fun hf => absurd (h1 ▸ hf) (by decide), fun _ => h2,
      fun hf => absurd (h1 ▸ hf) (by decide)⟩
  · exact ⟨fun hf => absurd (h1 ▸ hf) (by decide), fun hf => absurd (h1 ▸ hf) (by decide),
      fun _ => h2⟩

theorem Reconcile_shapes (w : World) (t : Target) :
    ((Reconcile w (some t)).2.target = default ∨
      StatusOK t.Status.ProvisioningStatus.Error (Reconcile w (some t)).2.target.Status) ∧
    ((w.getErr ≠ none ∨ w.writeErr 0 ≠ none) → (Reconcile w (some t)).2.stored = some t) ∧
    (w.getErr = none → w.writeErr 0 = none →
      StoredSat (StatusOK t.Status.ProvisioningStatus.Error) (Reconcile w (some t)).2) := by
  refine ⟨?_, fun h => (Reconcile_unmarked w t h).1, fun hget hw0 =>
    (Reconcile_inv_marked w t hget hw0).2⟩
  by_cases hget : w.getErr = none
  · by_cases hw0 : w.writeErr 0 = none
    · exact Or.inr (Reconcile_inv_marked w t hget hw0).1
    · rcases (Reconcile_unmarked w t (Or.inr hw0)).2 with h | h
      · exact Or.inl h
      · rw [h]
        exact Or.inr (Or.inr (Or.inr ⟨rfl, rfl⟩))
  · rcases (Reconcile_unmarked w t (Or.inl hget)).2 with h | h
    · exact Or.inl h
    · rw [h]
      exact Or.inr (Or.inr (Or.inr ⟨rfl, rfl⟩))

/-- C1 (amended): for every outcome of a pass of `Reconcile` on a stored Target, the
in-memory status at return has a non-empty error whenever its state is `Failed`, an
empty error whenever its state is `Succeeded`, and the error object the Target entered
the pass with whenever its state is `Reconciling`; when the Target enters with an empty
error, the in-memory error is non-empty if and only if the state is `Failed`. The
persisted status is the entry status, unchanged, when the fetch or the in-progress write
fails; once the in-progress write has succeeded it obeys the same three rules
(`Failed` with a non-empty error, `Succeeded` with an empty error, `Reconciling` with the
entry error). Hence a persisted `Failed` always carries a non-empty error and a persisted
`Succeeded` an empty one whenever the entry status did, and the equivalence holds of the
persisted status whenever the Target enters with an empty error and either a state other
than `Failed` or a succeeding in-progress write. -/
theorem reconcile_error_state (w : World) (t : Target) :
    ((Reconcile w (some t)).2.target.Status.ProvisioningStatus.Status
        = provisioningstates.Failed →
      (Reconcile w (some t)).2.target.Status.ProvisioningStatus.Error ≠ default) ∧
    ((Reconcile w (some t)).2.target.Status.ProvisioningStatus.Status
        = provisioningstates.Succeeded →
      (Reconcile w (some t)).2.target.Status.ProvisioningStatus.Error = default) ∧
    ((Reconcile w (some t)).2.target.Status.ProvisioningStatus.Status
        = provisioningstates.Reconciling →
      (Reconcile w (some t)).2.target.Status.ProvisioningStatus.Error
        = t.Status.ProvisioningStatus.Error) ∧
    (t.Status.ProvisioningStatus.Error = default →
      ((Reconcile w (some t)).2.target.Status.ProvisioningStatus.Error ≠ default ↔
        (Reconcile w (some t)).2.target.Status.ProvisioningStatus.Status
          = provisioningstates.Failed)) ∧
    (t.Status.ProvisioningStatus.Error = default →
      t.Status.ProvisioningStatus.Status ≠ provisioningstates.Failed →
      ∀ s, (Reconcile w (some t)).2.stored = some s →
        (s.Status.ProvisioningStatus.Error ≠ default ↔
          s.Status.ProvisioningStatus.Status = provisioningstates.Failed)) ∧
    ((w.getErr ≠ none ∨ w.writeErr 0 ≠ none) → (Reconcile w (some t)).2.stored = some t) ∧
    (w.getErr = none → w.writeErr 0 = none →
      ∀ s, (Reconcile w (some t)).2.stored = some s →
        (s.Status.ProvisioningStatus.Status = provisioningstates.Failed →
          s.Status.ProvisioningStatus.Error ≠ default) ∧
        (s.Status.ProvisioningStatus.Status = provisioningstates.Succeeded →
          s.Status.ProvisioningStatus.Error = default) ∧
        (s.Status.ProvisioningStatus.Status = provisioningstates.Reconciling →
          s.Status.ProvisioningStatus.Error = t.Status.ProvisioningStatus.Error)) ∧
    ((t.Status.ProvisioningStatus.Status = provisioningstates.Failed →
        t.Status.ProvisioningStatus.Error ≠ default) →
      ∀ s, (Reconcile w (some t)).2.stored = some s →
        s.Status.ProvisioningStatus.Status = provisioningstates.Failed →
          s.Status.ProvisioningStatus.Error ≠ default) ∧
    ((t.Status.ProvisioningStatus.Status = provisioningstates.Succeeded →
        t.Status.ProvisioningStatus.Error = default) →
      ∀ s, (Reconcile w (some t)).2.stored = some s →
        s.Status.ProvisioningStatus.Status = provisioningstates.Succeeded →
          s.Status.ProvisioningStatus.Error = default) ∧
    (t.Status.ProvisioningStatus.Error = default → w.getErr = none → w.writeErr 0 = none →
      ∀ s, (Reconcile w (some t)).2.stored = some s →
        (s.Status.ProvisioningStatus.Error ≠ default ↔
          s.Status.ProvisioningStatus.Status = provisioningstates.Failed)) := by
  obtain ⟨hmem, hun, hmk⟩ := Reconcile_shapes w t
  have hstored : ∀ s, (Reconcile w (some t)).2.stored = some s →
      s = t ∨ StatusOK t.Status.ProvisioningStatus.Error s.Status := by
    intro s hsome
    by_cases hget : w.getErr = none
    · by_cases hw0 : w.writeErr 0 = none
      · exact Or.inr (hmk hget hw0 s hsome)
      · rw [hun (Or.inr hw0), Option.some.injEq] at hsome
        exact Or.inl hsome.symm
    · rw [hun (Or.inl hget), Option.some.injEq] at hsome
      exact Or.inl hsome.symm
  have hmem3 : ((Reconcile w (some t)).2.target.Status.ProvisioningStatus.Status
        = provisioningstates.Failed →
        (Reconcile w (some t)).2.target.Status.ProvisioningStatus.Error ≠ default) ∧
      ((Reconcile w (some t)).2.target.Status.ProvisioningStatus.Status
        = provisioningstates.Succeeded →
        (Reconcile w (some t)).2.target.Status.ProvisioningStatus.Error = default) ∧
      ((Reconcile w (some t)).2.target.Status.ProvisioningStatus.Status
        = provisioningstates.Reconciling →
        (Reconcile w (some t)).2.target.Status.ProvisioningStatus.Error
          = t.Status.ProvisioningStatus.Error) := by
    rcases hmem with hd | hok
    · rw [hd]
      exact ⟨fun h => absurd h (by decide), fun _ => rfl, fun h => absurd h (by decide)⟩
    · exact StatusOK_shapes _ _ hok
  refine ⟨hmem3.1, hmem3.2.1, hmem3.2.2, ?_, ?_, hun, ?_, ?_, ?_, ?_⟩
  · intro he
    rcases hmem with hd | hok
    · rw [hd]
      exact ⟨fun h => absurd rfl h, fun h => absurd h (by decide)⟩
    · rw [he] at hok
      exact StatusOK_iff _ hok
  · intro he hs s hsome
    rcases hstored s hsome with heq | hok
    · rw [heq]
      exact ⟨fun h => absurd he h, fun h => absurd h hs⟩
    · rw [he] at hok
      exact StatusOK_iff _ hok
  · intro hget hw0 s hsome
    exact StatusOK_shapes _ _ (hmk hget hw0 s hsome)
  · intro hent s hsome hf
    rcases hstored s hsome with heq | hok
    · rw [heq] at hf ⊢
      exact hent hf
    · exact (StatusOK_shapes _ _ hok).1 hf
  · intro hent s hsome hf
    rcases hstored s hsome with heq | hok
    · rw [heq] at hf ⊢
      exact hent hf
    · exact (StatusOK_shapes _ _ hok).2.1 hf
  · intro he hget hw0 s hsome
    have hok := hmk hget hw0 s hsome
    rw [he] at hok
    exact StatusOK_iff _ hok

/-- Witness for C1 (amended): a Target entering with an empty error on which Deploy fails
ends in state `Failed` with a non-empty error; a Target stored as `Failed` with an error
and retried with every collaborator succeeding is persisted as `Succeeded` with an empty
error. -/
theorem reconcile_error_state_witness :
    liveTarget.Status.ProvisioningStatus.Error = default ∧
    liveTarget.Status.ProvisioningStatus.Status ≠ provisioningstates.Failed ∧
    ((Reconcile conflictWorld (some liveTarget)).2.target.Status.ProvisioningStatus.Error
        ≠ default ↔
      (Reconcile conflictWorld (some liveTarget)).2.target.Status.ProvisioningStatus.Status
        = provisioningstates.Failed) ∧
    (Reconcile conflictWorld (some liveTarget)).2.target.Status.ProvisioningStatus.Status
      = "Failed" ∧
    successWorld.getErr = none ∧ successWorld.writeErr 0 = none ∧
    failedTarget.Status.ProvisioningStatus.Status = "Failed" ∧
    (Reconcile successWorld (some failedTarget)).2.stored.map
      (fun s => s.Status.ProvisioningStatus) =
        some { OperationID := "op-1", Status := "Succeeded", Error := default } ∧
    ((Reconcile successWorld (some failedTarget)).2.target.Status.ProvisioningStatus.Status
        = provisioningstates.Succeeded →
      (Reconcile successWorld (some failedTarget)).2.target.Status.ProvisioningStatus.Error
        = default) :=
  ⟨rfl, by decide, (reconcile_error_state conflictWorld liveTarget).2.2.2.1 rfl, by decide,
    rfl, rfl, rfl, by decide, (reconcile_error_state successWorld failedTarget).2.1⟩

/-- C1 fails as stated: a Target stored with state `Failed` and a non-empty error, whose
descriptor carries no assignment, leaves a pass in which every collaborator succeeds with
state `Reconciling` and the old non-empty error, in memory and persisted. -/
theorem reconcile_error_state_violated :
    failedTarget.Status.ProvisioningStatus.Status = provisioningstates.Failed ∧
    failedTarget.Status.ProvisioningStatus.Error ≠ default ∧
    (Reconcile noopWorld (some failedTarget)).1 = none ∧
    (Reconcile noopWorld (some failedTarget)).2.target.Status.ProvisioningStatus.Status
      = "Reconciling" ∧
    ¬ ((Reconcile noopWorld (some failedTarget)).2.target.Status.ProvisioningStatus.Error
          ≠ default ↔
        (Reconcile noopWorld (some failedTarget)).2.target.Status.ProvisioningStatus.Status
          = provisioningstates.Failed) ∧
    (Reconcile noopWorld (some failedTarget)).2.stored.map Target.Status
      = some (Reconcile noopWorld (some failedTarget)).2.target.Status := by
  decide

/-! ## Lemmas on a succeeding pass -/

theorem AddFinalizer_fields (t : Target) (f : String) :
    (AddFinalizer t f).Annotations = t.Annotations ∧
    (AddFinalizer t f).DeletionTimestamp = t.DeletionTimestamp ∧
    (AddFinalizer t f).Spec = t.Spec := by
  unfold AddFinalizer
  split <;> exact ⟨rfl, rfl, rfl⟩

theorem AddFinalizer_contains (t : Target) (f : String) :
    ContainsFinalizer (AddFinalizer t f) f = true := by
  unfold AddFinalizer ContainsFinalizer
  split
  · assumption
  · simp

theorem buildInput_fields (w : World) (t : Target) :
    (buildInput w t).Annotations = t.Annotations ∧
    (buildInput w t).DeletionTimestamp = t.DeletionTimestamp ∧
    (buildInput w t).Spec = t.Spec ∧
    (buildInput w t).Finalizers = (AddFinalizer t myFinalizerName).Finalizers := by
  unfold buildInput
  obtain ⟨h1, h2, h3⟩ :=
    AddFinalizer_fields (ensureOperationState w t provisioningstates.Reconciling) myFinalizerName
  refine ⟨h1, h2, h3, ?_⟩
  unfold AddFinalizer ensureOperationState
  simp only
  split <;> rfl

theorem projectStatus_succeeded_provisioning (w : World) (t : Target) (status : String)
    (S : SummarySpec) :
    (projectStatus w t status provisioningstates.Succeeded S none).Status.ProvisioningStatus
      = { OperationID := (t.Annotations.get w.AzureOperationKey).getD ""
          Status := provisioningstates.Succeeded
          Error := default } := by
  rw [projectStatus_provisioning]
  rfl

theorem Reconcile_success_shape (w : World) (t : Target) (d : DeploymentSpec)
    (hget : w.getErr = none) (hw : ∀ n, w.writeErr n = none)
    (hdel : IsZero t.DeletionTimestamp = true)
    (hb : w.CreateSymphonyDeploymentFromTarget (buildInput w t) = Except.ok d)
    (hd : d.Assignments.len ≠ 0 → (w.Deploy d).2 = none) :
    (Reconcile w (some t)).1 = none ∧
    ∃ s, (Reconcile w (some t)).2.stored = some s ∧
      s.Status = (Reconcile w (some t)).2.target.Status ∧
      s.Annotations = t.Annotations ∧ s.DeletionTimestamp = t.DeletionTimestamp ∧
      s.Spec = t.Spec ∧ s.Finalizers = (AddFinalizer t myFinalizerName).Finalizers ∧
      s.Status.Properties =
        (if d.Assignments.len = 0 then t.Status.Properties
          else statusProperties "OK" (w.Deploy d).1) ∧
      s.Status.ProvisioningStatus =
        { OperationID := (t.Annotations.get w.AzureOperationKey).getD ""
          Status := if d.Assignments.len = 0 then provisioningstates.Reconciling
                    else provisioningstates.Succeeded
          Error := if d.Assignments.len = 0 then t.Status.ProvisioningStatus.Error
                   else default } := by
  obtain ⟨f1, f2, f3, f4⟩ := buildInput_fields w t
  rw [Reconcile_marked w t hget (hw 0), if_pos hdel, updateBranch_marked w t (fun _ => hw 1)]
  simp only [hb]
  by_cases hlen : d.Assignments.len = 0
  · rw [deployStep_zero w _ d hlen]
    refine ⟨rfl, buildInput w t, rfl, rfl, f1, f2, f3, f4, ?_, ?_⟩
    · rw [if_pos hlen]
      unfold buildInput
      rw [AddFinalizer_status]
      rfl
    · simp only [if_pos hlen]
      unfold buildInput
      rw [AddFinalizer_status]
      rfl
  · have hdep : w.Deploy d = ((w.Deploy d).1, none) := by
      rw [← hd hlen]
    rw [deployStep_ok w (builtPass w t) (buildInput w t) d (w.Deploy d).1 hlen hdep rfl (hw _),
      updateTargetStatus_ok w _ _ "OK" provisioningstates.Succeeded _ none rfl (hw _)]
    refine ⟨rfl, _, rfl, rfl, f1, f2, f3, f4, ?_, ?_⟩
    · rw [if_neg hlen]
      exact projectStatus_properties _ _ _ _ _ _
    · simp only [if_neg hlen]
      rw [projectStatus_succeeded_provisioning]
      show _ = _
      rw [show (builtPass w t).target = buildInput w t from rfl, f1]

theorem GoMap.mem_keys_iff {V : Type} (m : GoMap V) (k : String) :
    k ∈ m.keys ↔ ∃ v, m.get k = some v := by
  unfold GoMap.keys
  constructor
  · intro h
    obtain ⟨kv, hkv, rfl⟩ := List.mem_map.1 h
    exact ⟨kv.2, (GoMap.get_eq_some_iff m kv.1 kv.2).2 hkv⟩
  · rintro ⟨v, hv⟩
    exact List.mem_map.2 ⟨(k, v), (GoMap.get_eq_some_iff m k v).1 hv, rfl⟩

theorem statusProperties_get_congr (status : String) (S T : SummarySpec)
    (htc : T.TargetCount = S.TargetCount) (hsc : T.SuccessCount = S.SuccessCount)
    (hlook : ∀ k, T.TargetResults.get k = S.TargetResults.get k) (key : String) :
    (statusProperties status T).get key = (statusProperties status S).get key := by
  by_cases h : ∃ kv ∈ S.TargetResults.entries, key = "targets." ++ kv.1
  · obtain ⟨kv, hkv, rfl⟩ := h
    have g : S.TargetResults.get kv.1 = some kv.2 :=
      (GoMap.get_eq_some_iff _ kv.1 kv.2).2 hkv
    rw [statusProperties_get_result status S kv.1 kv.2 g,
      statusProperties_get_result status T kv.1 kv.2 (by rw [hlook]; exact g)]
  · have hS : ∀ kv ∈ S.TargetResults.entries, key ≠ "targets." ++ kv.1 :=
      fun kv hkv heq => h ⟨kv, hkv, heq⟩
    have hT : ∀ kv ∈ T.TargetResults.entries, key ≠ "targets." ++ kv.1 := by
      intro kv hkv heq
      have g : T.TargetResults.get kv.1 = some kv.2 :=
        (GoMap.get_eq_some_iff _ kv.1 kv.2).2 hkv
      rw [hlook] at g
      exact h ⟨(kv.1, kv.2), (GoMap.get_eq_some_iff _ kv.1 kv.2).1 g, heq⟩
    unfold statusProperties
    rw [foldl_resultStep_get_other _ _ _ hS, foldl_resultStep_get_other _ _ _ hT, htc, hsc]

theorem threeSummaryReordered_get (k : String) :
    threeSummaryReordered.TargetResults.get k = threeSummary.TargetResults.get k := by
  simp only [threeSummaryReordered, threeSummary, GoMap.get_set]
  by_cases ha : k = "a" <;> by_cases hb : k = "b" <;> by_cases hc : k = "c" <;>
    simp [ha, hb, hc]

/-- C9: for a Target without deletion intent, if a pass succeeds (fetch, descriptor build,
Deploy when it is called, and every store write) and a second pass is run on the persisted
result with the same annotation key, the same descriptor and the same Deploy result (no
error, the same two counts and the same result under every sub-target key, in whatever
order the results are ranged), the second pass succeeds too and leaves
`status.properties` (the same keys, the same value under every key) and
`status.provisioningStatus` (state, operation id, error) equal to those left by the first
pass, in memory and persisted; `lastModified` is not compared. -/
theorem reconcile_idempotent (w1 w2 : World) (t : Target) (d : DeploymentSpec)
    (hkey : w2.AzureOperationKey = w1.AzureOperationKey)
    (hget1 : w1.getErr = none) (hw1 : ∀ n, w1.writeErr n = none)
    (hget2 : w2.getErr = none) (hw2 : ∀ n, w2.writeErr n = none)
    (hdel : IsZero t.DeletionTimestamp = true)
    (hb : w1.CreateSymphonyDeploymentFromTarget (buildInput w1 t) = Except.ok d)
    (hb2 : ∀ t1, (Reconcile w1 (some t)).2.stored = some t1 →
      w2.CreateSymphonyDeploymentFromTarget (buildInput w2 t1) = Except.ok d)
    (hres : (w2.Deploy d).2 = (w1.Deploy d).2)
    (htc : (w2.Deploy d).1.TargetCount = (w1.Deploy d).1.TargetCount)
    (hsc : (w2.Deploy d).1.SuccessCount = (w1.Deploy d).1.SuccessCount)
    (hlook : ∀ k, (w2.Deploy d).1.TargetResults.get k = (w1.Deploy d).1.TargetResults.get k)
    (hd : d.Assignments.len ≠ 0 → (w1.Deploy d).2 = none) :
    ∃ t1 t2, (Reconcile w1 (some t)).1 = none ∧ (Reconcile w1 (some t)).2.stored = some t1 ∧
      (Reconcile w2 (some t1)).1 = none ∧ (Reconcile w2 (some t1)).2.stored = some t2 ∧
      (∀ key, t2.Status.Properties.get key = t1.Status.Properties.get key) ∧
      (∀ key, key ∈ t2.Status.Properties.keys ↔ key ∈ t1.Status.Properties.keys) ∧
      t2.Status.ProvisioningStatus = t1.Status.ProvisioningStatus ∧
      (∀ key, (Reconcile w2 (some t1)).2.target.Status.Properties.get key
        = (Reconcile w1 (some t)).2.target.Status.Properties.get key) ∧
      (∀ key, key ∈ (Reconcile w2 (some t1)).2.target.Status.Properties.keys
        ↔ key ∈ (Reconcile w1 (some t)).2.target.Status.Properties.keys) ∧
      (Reconcile w2 (some t1)).2.target.Status.ProvisioningStatus
        = (Reconcile w1 (some t)).2.target.Status.ProvisioningStatus := by
  obtain ⟨r1, t1, hs1, hm1, a1, a2, _, _, a5, a6⟩ :=
    Reconcile_success_shape w1 t d hget1 hw1 hdel hb hd
  have hdel2 : IsZero t1.DeletionTimestamp = true := by rw [a2]; exact hdel
  have hd2 : d.Assignments.len ≠ 0 → (w2.Deploy d).2 = none := by
    rw [hres]
    exact hd
  obtain ⟨r2, t2, hs2, hm2, _, _, _, _, b5, b6⟩ :=
    Reconcile_success_shape w2 t1 d hget2 hw2 hdel2 (hb2 t1 hs1) hd2
  have hprops : ∀ key, t2.Status.Properties.get key = t1.Status.Properties.get key := by
    intro key
    rw [b5, a5]
    by_cases hlen : d.Assignments.len = 0
    · simp only [if_pos hlen]
    · simp only [if_neg hlen]
      exact statusProperties_get_congr "OK" _ _ htc hsc hlook key
  have hkeys : ∀ key, key ∈ t2.Status.Properties.keys ↔ key ∈ t1.Status.Properties.keys := by
    intro key
    rw [GoMap.mem_keys_iff, GoMap.mem_keys_iff]
    simp only [hprops]
  have hprov : t2.Status.ProvisioningStatus = t1.Status.ProvisioningStatus := by
    rw [b6, a6, a1, hkey]
    by_cases hlen : d.Assignments.len = 0
    · simp only [if_pos hlen]
    · simp only [if_neg hlen]
  refine ⟨t1, t2, r1, hs1, r2, hs2, hprops, hkeys, hprov, ?_, ?_, ?_⟩
  · rw [← hm2, ← hm1]
    exact hprops
  · rw [← hm2, ← hm1]
    exact hkeys
  · rw [← hm2, ← hm1]
    exact hprov

/-- Witness for C9: the three-assignment scenario, reconciled twice; the second pass runs
at a later time and ranges the Deploy results in another order. -/
theorem reconcile_idempotent_witness :
    IsZero liveTarget.DeletionTimestamp = true ∧
    laterWorld.Deploy threeDeployment ≠ successWorld.Deploy threeDeployment ∧
    (Reconcile successWorld (some liveTarget)).1 = none ∧
    (Reconcile laterWorld (some onceReconciled)).1 = none ∧
    (Reconcile laterWorld (some onceReconciled)).2.stored.map
        (fun s => (s.Status.Properties.get "status", s.Status.Properties.get "targets",
          s.Status.Properties.get "deployed", s.Status.Properties.get "targets.a",
          s.Status.Properties.get "targets.b", s.Status.Properties.get "targets.c",
          s.Status.Properties.get "other", s.Status.ProvisioningStatus))
      = some (onceReconciled.Status.Properties.get "status",
          onceReconciled.Status.Properties.get "targets",
          onceReconciled.Status.Properties.get "deployed",
          onceReconciled.Status.Properties.get "targets.a",
          onceReconciled.Status.Properties.get "targets.b",
          onceReconciled.Status.Properties.get "targets.c",
          onceReconciled.Status.Properties.get "other",
          onceReconciled.Status.ProvisioningStatus) ∧
    (Reconcile laterWorld (some onceReconciled)).2.stored.map
        (fun s => s.Status.LastModified) = some 43 ∧
    onceReconciled.Status.LastModified = 42 := by
  obtain ⟨t1, t2, h1, h2, h3, h4, h5, _, h6, _, _, _⟩ :=
    reconcile_idempotent successWorld laterWorld liveTarget threeDeployment rfl
      rfl (fun _ => rfl) rfl (fun _ => rfl) rfl rfl (fun _ _ => rfl) rfl rfl rfl
      threeSummaryReordered_get (fun _ => rfl)
  have ht1 : t1 = onceReconciled := by
    have : (Reconcile successWorld (some liveTarget)).2.stored = some onceReconciled := by
      decide
    rw [this] at h2
    exact (Option.some.inj h2).symm
  subst ht1
  refine ⟨rfl, by decide, h1, h3, ?_, by decide, by decide⟩
  rw [h4]
  simp only [Option.map, h5, h6]

end Symphony
